import Mathlib

set_option linter.unusedVariables false

namespace Twist

/-- Big-endian interpretation of a list of bytes, as ReadBytesExt does for u16, u32 and u64. -/
def readBE (bs : List Nat) : Nat := bs.foldl (fun a b => a * 256 + b) 0

/-- Big-endian two-byte encoding written by write_u16. -/
def be16 (n : Nat) : List Nat := [n / 2 ^ 8 % 256, n % 256]

/-- Big-endian four-byte encoding written by write_u32. -/
def be32 (n : Nat) : List Nat := [n / 2 ^ 24 % 256, n / 2 ^ 16 % 256, n / 2 ^ 8 % 256, n % 256]

/-- Big-endian eight-byte encoding written by write_u64. -/
def be64 (n : Nat) : List Nat :=
  [n / 2 ^ 56 % 256, n / 2 ^ 48 % 256, n / 2 ^ 40 % 256, n / 2 ^ 32 % 256,
   n / 2 ^ 24 % 256, n / 2 ^ 16 % 256, n / 2 ^ 8 % 256, n % 256]

/-- Modelled from the spec: the OpCode enumeration of frame/base.rs is not under src/.
Spec section 3 fixes the mapping: data opcodes Continuation 0x0, Text 0x1, Binary 0x2;
control opcodes Close 0x8, Ping 0x9, Pong 0xA; every other 4-bit code is reserved. -/
inductive OpCode
  | Continuation
  | Text
  | Binary
  | Close
  | Ping
  | Pong
  | Reserved (code : Nat)
  deriving DecidableEq

/-- Modelled from the spec: OpCode::from on the low four header bits. -/
def OpCode.fromNat : Nat → OpCode
  | 0 => .Continuation
  | 1 => .Text
  | 2 => .Binary
  | 8 => .Close
  | 9 => .Ping
  | 10 => .Pong
  | c => .Reserved c

/-- Modelled from the spec: the u8 wire value of an opcode, as used by encode. -/
def OpCode.toNat : OpCode → Nat
  | .Continuation => 0
  | .Text => 1
  | .Binary => 2
  | .Close => 8
  | .Ping => 9
  | .Pong => 10
  | .Reserved c => c

/-- Modelled from the spec: control opcodes are exactly Close, Ping and Pong. -/
def OpCode.is_control : OpCode → Bool
  | .Close => true
  | .Ping => true
  | .Pong => true
  | _ => false

/-- Modelled from the spec: reserved opcodes are invalid and must fail decoding. -/
def OpCode.is_invalid : OpCode → Bool
  | .Reserved _ => true
  | _ => false

/-- Modelled from the spec: the Frame record of frame/base.rs (not under src/), per spec
section 3: header flags, opcode, masked flag, 32-bit mask, payload length and the two
optional byte buffers.  The getters and setters used by codec/base.rs are plain field
accesses. -/
structure Frame where
  fin : Bool
  rsv1 : Bool
  rsv2 : Bool
  rsv3 : Bool
  opcode : OpCode
  masked : Bool
  mask : Nat
  payload_length : Nat
  application_data : Option (List Nat)
  extension_data : Option (List Nat)
  deriving DecidableEq

/-- DecodeState from src/src/codec/base.rs lines 15-28; Default (lines 30-34) is NONE. -/
inductive DecodeState
  | NONE
  | HEADER
  | LENGTH
  | MASK
  | FULL
  deriving DecidableEq

/-- FrameCodec from src/src/codec/base.rs lines 36-69, fields in source order.
Byte-sized and word-sized integers are modelled as Nat; the buffers as byte lists. -/
structure FrameCodec where
  client : Bool
  fin : Bool
  rsv1 : Bool
  rsv2 : Bool
  rsv3 : Bool
  opcode : OpCode
  masked : Bool
  length_code : Nat
  payload_length : Nat
  mask_key : Nat
  extension_data : Option (List Nat)
  application_data : Option (List Nat)
  state : DecodeState
  min_len : Nat
  reserved_bits : Nat
  deriving DecidableEq

/-- Derived Default for FrameCodec (src lines 36-69): false, zero, None everywhere and
state NONE.  The Default of OpCode lives in frame/base.rs which is not under src/; it is
modelled from the spec as Close, and no claim depends on the choice because decode
overwrites the opcode before using it. -/
def FrameCodec.default : FrameCodec :=
  { client := false, fin := false, rsv1 := false, rsv2 := false, rsv3 := false,
    opcode := .Close, masked := false, length_code := 0, payload_length := 0,
    mask_key := 0, extension_data := none, application_data := none,
    state := .NONE, min_len := 0, reserved_bits := 0 }

/-- FrameCodec::set_client (src lines 73-76). -/
def FrameCodec.set_client (fc : FrameCodec) (client : Bool) : FrameCodec :=
  { fc with client := client }

/-- FrameCodec::set_reserved_bits (src lines 79-82). -/
def FrameCodec.set_reserved_bits (fc : FrameCodec) (reserved_bits : Nat) : FrameCodec :=
  { fc with reserved_bits := reserved_bits }

/-- Cyclic XOR step of apply_mask: byte at running index i is XORed with mask byte
i mod 4 (iter().cycle() over the four big-endian mask bytes). -/
def apply_mask_from (mask_buf : List Nat) (i : Nat) : List Nat → List Nat
  | [] => []
  | b :: rest => (b ^^^ mask_buf.getD (i % 4) 0) :: apply_mask_from mask_buf (i + 1) rest

/-- FrameCodec::apply_mask (src lines 85-93): XOR the buffer with the cycled big-endian
bytes of the 32-bit mask.  Pure, since write_u32 into a Vec cannot fail. -/
def apply_mask (buf : List Nat) (mask : Nat) : List Nat :=
  apply_mask_from (be32 mask) 0 buf

/-- Modelled from the spec: the three outcomes of the incremental UTF-8 validator of
util::utf8 (not under src/), spec section 4.2: valid-and-complete, valid-but-incomplete,
invalid.  In the source these surface as Ok(Some), Ok(None) and Err. -/
inductive Utf8Result
  | complete
  | incomplete
  | invalid
  deriving DecidableEq

/-- Modelled from the spec: leading-byte classification for UTF-8, giving the number of
continuation bytes the leading byte requires, or none when the byte can never start a
sequence. -/
def utf8lead (b : Nat) : Option Nat :=
  if b < 0x80 then some 0
  else if b < 0xC0 then none
  else if b < 0xE0 then some 1
  else if b < 0xF0 then some 2
  else if b < 0xF8 then some 3
  else none

/-- Modelled from the spec: whether a byte is a UTF-8 continuation byte. -/
def utf8cont (b : Nat) : Bool := decide (0x80 ≤ b) && decide (b < 0xC0)

/-- Modelled from the spec: the resumable UTF-8 scan with k continuation bytes still
expected; spec section 4.2. -/
def utf8run (k : Nat) (l : List Nat) : Utf8Result :=
  match l, k with
  | [], 0 => .complete
  | [], _ + 1 => .incomplete
  | b :: rest, 0 =>
    (match utf8lead b with
     | none => .invalid
     | some j => utf8run j rest)
  | b :: rest, j + 1 => if utf8cont b then utf8run j rest else .invalid

/-- Modelled from the spec: utf8::validate over a whole chunk, starting with no pending
continuation bytes. -/
def utf8validate (bs : List Nat) : Utf8Result := utf8run 0 bs

/-- Result of one decode call.  Err(io::Error) is modelled as an error string, Ok(None)
as a none frame (NeedsMore), Ok(Some) carries the frame; the mutated codec and the
undrained bytes of the EasyBuf are returned explicitly since Rust updates them in
place. -/
abbrev DecodeResult := Except String (Option Frame × FrameCodec × List Nat)

/-- From FrameCodec for Frame (src lines 330-345): copy every accumulated field into a
fresh Frame. -/
def toFrame (fc : FrameCodec) : Frame :=
  { fin := fc.fin, rsv1 := fc.rsv1, rsv2 := fc.rsv2, rsv3 := fc.rsv3,
    opcode := fc.opcode, masked := fc.masked, mask := fc.mask_key,
    payload_length := fc.payload_length, application_data := fc.application_data,
    extension_data := fc.extension_data }

/-- DecodeState::FULL arm (src line 258): break out of the loop, then emit the
accumulated frame (src line 262). -/
def runFULL (fc : FrameCodec) (buf : List Nat) (buf_len : Nat) : DecodeResult :=
  .ok (some (toFrame fc), fc, buf)

/-- DecodeState::MASK arm (src lines 217-256).  With fewer than payload_length bytes
buffered, a masked Text frame gets its unmasked prefix validated early and the call
otherwise returns Ok(None); with all payload bytes present the payload is drained and
unmasked when masked, while a nonempty unmasked payload hits the Err branch. -/
def runMASK (fc0 : FrameCodec) (buf : List Nat) (buf_len : Nat) : DecodeResult :=
  let fc := { fc0 with min_len := fc0.min_len + fc0.payload_length }
  let mask := fc.mask_key
  if buf_len < fc.min_len then
    let fc := { fc with min_len := fc.min_len - fc.payload_length }
    if fc.opcode == OpCode.Text then
      if fc.masked then
        match utf8validate (apply_mask buf mask) with
        | .invalid => .error "error during UTF-8 validation"
        | _ => .ok (none, fc, buf)
      else .error "cannot unmask data"
    else .ok (none, fc, buf)
  else
    if fc.payload_length > 0 then
      let adb := buf.take fc.payload_length
      let rest := buf.drop fc.payload_length
      if fc.masked then
        let fc := { fc with application_data := some (apply_mask adb mask), state := DecodeState.FULL }
        runFULL fc rest buf_len
      else .error "cannot unmask data"
    else
      runFULL { fc with state := DecodeState.FULL } buf buf_len

/-- DecodeState::LENGTH arm (src lines 196-216): read the four mask-key bytes when the
masked flag is set, else record a zero mask.  The Err branch of read_u32 is unreachable
once the four bytes are present. -/
def runLENGTH (fc0 : FrameCodec) (buf : List Nat) (buf_len : Nat) : DecodeResult :=
  if fc0.masked then
    let fc := { fc0 with min_len := fc0.min_len + 4 }
    if buf_len < fc.min_len then
      .ok (none, { fc with min_len := fc.min_len - 4 }, buf)
    else
      runMASK { fc with mask_key := readBE (buf.take 4), state := DecodeState.MASK }
        (buf.drop 4) buf_len
  else
    runMASK { fc0 with mask_key := 0, state := DecodeState.MASK } buf buf_len

/-- Control-length check at the end of the HEADER arm (src lines 192-194), after which
the loop falls through to the LENGTH arm. -/
def runHEADERcheck (fc : FrameCodec) (buf : List Nat) (buf_len : Nat) : DecodeResult :=
  if 125 < fc.payload_length ∧ fc.opcode.is_control then .error "invalid control frame"
  else runLENGTH fc buf buf_len

/-- DecodeState::HEADER arm (src lines 156-195): resolve the payload length from the
length code, draining two or eight extended-length bytes when the code is 126 or 127.
The Err branches of read_u16 and read_u64 are unreachable once the bytes are present. -/
def runHEADER (fc0 : FrameCodec) (buf : List Nat) (buf_len : Nat) : DecodeResult :=
  if fc0.length_code == 126 then
    let fc := { fc0 with min_len := fc0.min_len + 2 }
    if buf_len < fc.min_len then
      .ok (none, { fc with min_len := fc.min_len - 2 }, buf)
    else
      runHEADERcheck
        { fc with payload_length := readBE (buf.take 2), state := DecodeState.LENGTH }
        (buf.drop 2) buf_len
  else if fc0.length_code == 127 then
    let fc := { fc0 with min_len := fc0.min_len + 8 }
    if buf_len < fc.min_len then
      .ok (none, { fc with min_len := fc.min_len - 8 }, buf)
    else
      runHEADERcheck
        { fc with payload_length := readBE (buf.take 8), state := DecodeState.LENGTH }
        (buf.drop 8) buf_len
  else
    runHEADERcheck
      { fc0 with payload_length := fc0.length_code, state := DecodeState.LENGTH }
      buf buf_len

/-- DecodeState::NONE arm (src lines 109-155): drain the two header bytes, extract the
flags, opcode, masked flag and length code, and run the header validity checks in source
order.  Note the source does not restore min_len before the early Ok(None) here. -/
def runNONE (fc0 : FrameCodec) (buf0 : List Nat) (buf_len : Nat) : DecodeResult :=
  let fc := { fc0 with min_len := fc0.min_len + 2 }
  if buf_len < fc.min_len then .ok (none, fc, buf0)
  else
    let first := buf0.getD 0 0
    let second := buf0.getD 1 0
    let buf := buf0.drop 2
    let fc := { fc with fin := first &&& 0x80 != 0, rsv1 := first &&& 0x40 != 0 }
    if fc.rsv1 && (fc.reserved_bits &&& 0x4 == 0) then .error "invalid rsv1 bit set"
    else
    let fc := { fc with rsv2 := first &&& 0x20 != 0 }
    if fc.rsv2 && (fc.reserved_bits &&& 0x2 == 0) then .error "invalid rsv2 bit set"
    else
    let fc := { fc with rsv3 := first &&& 0x10 != 0 }
    if fc.rsv3 && (fc.reserved_bits &&& 0x1 == 0) then .error "invalid rsv3 bit set"
    else
    let fc := { fc with opcode := OpCode.fromNat (first &&& 0x0F) }
    if fc.opcode.is_invalid then .error "invalid opcode set"
    else if fc.opcode.is_control && !fc.fin then .error "control frames must not be fragmented"
    else
    let fc := { fc with masked := second &&& 0x80 != 0 }
    if !fc.masked && fc.client then .error "all client frames must have a mask"
    else
    runHEADER { fc with length_code := second &&& 0x7F, state := DecodeState.HEADER }
      buf buf_len

/-- Codec::decode for FrameCodec (src lines 100-263): return Ok(None) on an empty
buffer, otherwise reset min_len and run the state-machine loop from the stored state.
The loop only moves forward through the states, so it is unrolled into the run chain. -/
def decode (fc0 : FrameCodec) (buf : List Nat) : DecodeResult :=
  let buf_len := buf.length
  if buf_len == 0 then .ok (none, fc0, buf)
  else
    let fc := { fc0 with min_len := 0 }
    match fc.state with
    | .NONE => runNONE fc buf buf_len
    | .HEADER => runHEADER fc buf buf_len
    | .LENGTH => runLENGTH fc buf buf_len
    | .MASK => runMASK fc buf buf_len
    | .FULL => runFULL fc buf buf_len

/-- First output byte written by encode (src lines 266-286): fin, rsv and opcode bits. -/
def first_byte (msg : Frame) : Nat :=
  ((((if msg.fin then 0x80 else 0) ||| (if msg.rsv1 then 0x40 else 0)) |||
    (if msg.rsv2 then 0x20 else 0)) ||| (if msg.rsv3 then 0x10 else 0)) |||
    msg.opcode.toNat

/-- Second output byte plus extended-length bytes written by encode (src lines 288-314):
the mask bit in the top bit, then the shortest length encoding that fits. -/
def length_bytes (msg : Frame) : List Nat :=
  let second_byte := if msg.masked then 0x80 else 0
  let len := msg.payload_length
  if len < 126 then [second_byte ||| len]
  else if len < 65536 then (second_byte ||| 126) :: be16 len
  else (second_byte ||| 127) :: be64 len

/-- Codec::encode for FrameCodec (src lines 265-327): append the first byte, the length
section, the four mask-key bytes when the masked flag is set, and the application data
verbatim. -/
def encode (msg : Frame) (buf : List Nat) : List Nat :=
  ((buf ++ [first_byte msg] ++ length_bytes msg) ++
    (if msg.masked then be32 msg.mask else [])) ++
    (match msg.application_data with | some app_data => app_data | none => [])

/-- Frame component of a decode result, when one was emitted. -/
def decodedFrame : DecodeResult → Option Frame
  | .ok (f, _, _) => f
  | .error _ => none

/-- Codec component of a decode result. -/
def codecAfter : DecodeResult → Option FrameCodec
  | .ok (_, fc, _) => some fc
  | .error _ => none

/-- Whether a decode call returned Err. -/
def hasFailed : DecodeResult → Bool
  | .error _ => true
  | .ok _ => false

/-- Feeding byte chunks through successive decode calls: each call sees the bytes left
undrained by the previous call followed by the next chunk, and the emitted frames are
collected in order. -/
def feedChunks (fc : FrameCodec) (pending : List Nat) :
    List (List Nat) → Except String (List Frame × FrameCodec × List Nat)
  | [] => .ok ([], fc, pending)
  | c :: cs =>
    match decode fc (pending ++ c) with
    | .error e => .error e
    | .ok (none, fc1, r) => feedChunks fc1 r cs
    | .ok (some f, fc1, r) =>
      match feedChunks fc1 r cs with
      | .error e => .error e
      | .ok (fs, fc2, r2) => .ok (f :: fs, fc2, r2)

/-- Codec decoding frames arriving from a client, as the tests configure it
(set_client(true)). -/
def fcServer : FrameCodec := FrameCodec.default.set_client true

/-- The masked empty Ping of the decode_ping_no_data test (src line 382). -/
def ping1 : List Nat := [0x89, 0x80, 0x00, 0x00, 0x00, 0x01]

/-- A second masked empty Ping, identical except for its mask key 2. -/
def ping2 : List Nat := [0x89, 0x80, 0x00, 0x00, 0x00, 0x02]

/-- The frame carried by ping1. -/
def pingFrame1 : Frame :=
  { fin := true, rsv1 := false, rsv2 := false, rsv3 := false, opcode := .Ping,
    masked := true, mask := 1, payload_length := 0,
    application_data := none, extension_data := none }

/-- Codec state after ping1 has been decoded by fcServer: still in state FULL. -/
def fcAfterPing1 : FrameCodec :=
  { client := true, fin := true, rsv1 := false, rsv2 := false, rsv3 := false,
    opcode := .Ping, masked := true, length_code := 0, payload_length := 0,
    mask_key := 1, extension_data := none, application_data := none,
    state := .FULL, min_len := 6, reserved_bits := 0 }

/-- Masked single-byte Binary frame handed to encode with a plaintext payload. -/
def frameC2 : Frame :=
  { fin := true, rsv1 := false, rsv2 := false, rsv3 := false, opcode := .Binary,
    masked := true, mask := 0x01020304, payload_length := 1,
    application_data := some [0xFF], extension_data := none }

/-- Masked single-byte Binary frame with plaintext payload byte 0. -/
def frameC4 : Frame :=
  { fin := true, rsv1 := false, rsv2 := false, rsv3 := false, opcode := .Binary,
    masked := true, mask := 0x01020304, payload_length := 1,
    application_data := some [0x00], extension_data := none }

/-- What decode actually returns for encode of frameC4: the payload came back XORed with
the first mask byte. -/
def frameC4degraded : Frame :=
  { fin := true, rsv1 := false, rsv2 := false, rsv3 := false, opcode := .Binary,
    masked := true, mask := 0x01020304, payload_length := 1,
    application_data := some [0x01], extension_data := none }

/-- Text frame whose whole payload, the invalid UTF-8 byte 0xFF, is buffered at once
(mask key zero, so the unmasked payload is also 0xFF). -/
def frameC7 : Frame :=
  { fin := true, rsv1 := false, rsv2 := false, rsv3 := false, opcode := .Text,
    masked := true, mask := 0, payload_length := 1,
    application_data := some [0xFF], extension_data := none }

/-- Masked Binary frame header whose 8-byte extended length has the high bit set. -/
def c8input : List Nat := [0x82, 0xFF, 0x80, 0x00, 0x00, 0x00, 0x00, 0x00, 0x00, 0x01]

/-- Undrained-buffer component of a decode result. -/
def bufAfter : DecodeResult → Option (List Nat)
  | .ok (_, _, buf) => some buf
  | .error _ => none

/-- Codec fields after the NONE arm has parsed header bytes b0 and b1. -/
def headerFC (fc : FrameCodec) (b0 b1 : Nat) : FrameCodec :=
  { fc with
    min_len := fc.min_len + 2, fin := b0 &&& 0x80 != 0,
    rsv1 := b0 &&& 0x40 != 0, rsv2 := b0 &&& 0x20 != 0, rsv3 := b0 &&& 0x10 != 0,
    opcode := OpCode.fromNat (b0 &&& 0x0F), masked := b1 &&& 0x80 != 0,
    length_code := b1 &&& 0x7F, state := DecodeState.HEADER }

/-- Frame as decode returns it after encode: the payload is XORed with the mask pattern
because encode wrote it verbatim and decode unmasked it. -/
def frameUnmasked (msg : Frame) : Frame :=
  { msg with application_data := msg.application_data.map (fun l => apply_mask l msg.mask) }

/-- Codecs equal except possibly in the min_len bookkeeping field, which every decode
call resets before use. -/
def fcEquiv (a b : FrameCodec) : Prop := ∃ m, b = { a with min_len := m }

/-- Decode results equal up to the min_len bookkeeping of the returned codec. -/
def resEquiv : DecodeResult → DecodeResult → Prop
  | .ok (f1, c1, b1), .ok (f2, c2, b2) => f1 = f2 ∧ fcEquiv c1 c2 ∧ b1 = b2
  | .error e1, .error e2 => e1 = e2
  | _, _ => False

/-- Masked two-byte Binary frame used to witness the amended round-trip and
chunked-feed theorems. -/
def frameC5 : Frame :=
  { fin := true, rsv1 := false, rsv2 := false, rsv3 := false, opcode := .Binary,
    masked := true, mask := 0x11223344, payload_length := 2,
    application_data := some [0x00, 0xFF], extension_data := none }

/-- A chunking of encode frameC5 []: header byte alone, length byte with half the mask
key, an empty chunk, the rest of the mask key with the first payload byte, and the
final payload byte. -/
def csC5 : List (List Nat) :=
  [[0x82], [0x82, 0x11, 0x22], [], [0x33, 0x44, 0x00], [0xFF]]

/-- Dispatch of decode on a nonempty buffer from state NONE. -/
theorem decode_dispatch_NONE (fc : FrameCodec) (buf : List Nat)
    (h : fc.state = DecodeState.NONE) (hne : buf ≠ []) :
    decode fc buf = runNONE { fc with min_len := 0 } buf buf.length := by
  unfold decode
  rw [if_neg (by simp [hne]), show ({ fc with min_len := 0 } : FrameCodec).state =
    DecodeState.NONE from h]

/-- The NONE arm with fewer than two bytes buffered: NeedsMore without restoring
min_len. -/
theorem runNONE_stall (fc : FrameCodec) (buf : List Nat) (bl : Nat)
    (hbl : bl < fc.min_len + 2) :
    runNONE fc buf bl = .ok (none, { fc with min_len := fc.min_len + 2 }, buf) := by
  unfold runNONE
  rw [if_pos hbl]

/-- The NONE arm when every header check passes: the parsed fields land in the codec and
the loop continues with the HEADER arm. -/
theorem runNONE_ok (fc : FrameCodec) (b0 b1 : Nat) (rest : List Nat) (bl : Nat)
    (hbl : ¬ (bl < fc.min_len + 2))
    (hr1 : b0 &&& 0x40 ≠ 0 → fc.reserved_bits &&& 0x4 ≠ 0)
    (hr2 : b0 &&& 0x20 ≠ 0 → fc.reserved_bits &&& 0x2 ≠ 0)
    (hr3 : b0 &&& 0x10 ≠ 0 → fc.reserved_bits &&& 0x1 ≠ 0)
    (hop : (OpCode.fromNat (b0 &&& 0x0F)).is_invalid = false)
    (hfrag : (OpCode.fromNat (b0 &&& 0x0F)).is_control = true → b0 &&& 0x80 ≠ 0)
    (hm : b1 &&& 0x80 = 0 → fc.client = false) :
    runNONE fc (b0 :: b1 :: rest) bl = runHEADER (headerFC fc b0 b1) rest bl := by
  unfold runNONE
  rw [if_neg hbl]
  simp only [List.getD_cons_zero, List.getD_cons_succ, List.drop_succ_cons,
    List.drop_zero]
  rw [if_neg ?c1]
  case c1 =>
    simp only [Bool.and_eq_true, bne_iff_ne, beq_iff_eq]
    rintro ⟨a, b⟩
    exact hr1 a b
  rw [if_neg ?c2]
  case c2 =>
    simp only [Bool.and_eq_true, bne_iff_ne, beq_iff_eq]
    rintro ⟨a, b⟩
    exact hr2 a b
  rw [if_neg ?c3]
  case c3 =>
    simp only [Bool.and_eq_true, bne_iff_ne, beq_iff_eq]
    rintro ⟨a, b⟩
    exact hr3 a b
  rw [if_neg (by simp [hop])]
  rw [if_neg ?c4]
  case c4 =>
    simp only [Bool.and_eq_true, Bool.not_eq_true', bne_eq_false_iff_eq]
    rintro ⟨a, b⟩
    exact hfrag a b
  rw [if_neg ?c5]
  case c5 =>
    simp only [Bool.and_eq_true, Bool.not_eq_true', bne_eq_false_iff_eq]
    rintro ⟨a, b⟩
    rw [hm a] at b
    exact Bool.false_ne_true b
  simp only [headerFC]

/-- The HEADER arm with an inline length code. -/
theorem runHEADER_literal (fc : FrameCodec) (buf : List Nat) (bl : Nat)
    (h126 : fc.length_code ≠ 126) (h127 : fc.length_code ≠ 127) :
    runHEADER fc buf bl =
      runHEADERcheck { fc with
        payload_length := fc.length_code, state := DecodeState.LENGTH } buf bl := by
  unfold runHEADER
  rw [if_neg (by simp [h126]), if_neg (by simp [h127])]

/-- The HEADER arm reading a two-byte extended length. -/
theorem runHEADER_ext2 (fc : FrameCodec) (buf : List Nat) (bl : Nat)
    (hlc : fc.length_code = 126) (hbl : ¬ (bl < fc.min_len + 2)) :
    runHEADER fc buf bl =
      runHEADERcheck { fc with
        min_len := fc.min_len + 2, payload_length := readBE (buf.take 2),
        state := DecodeState.LENGTH } (buf.drop 2) bl := by
  unfold runHEADER
  rw [if_pos (by simp [hlc])]
  rw [if_neg hbl]

/-- The HEADER arm stalling on a two-byte extended length, with min_len restored. -/
theorem runHEADER_ext2_stall (fc : FrameCodec) (buf : List Nat) (bl : Nat)
    (hlc : fc.length_code = 126) (hbl : bl < fc.min_len + 2) :
    runHEADER fc buf bl = .ok (none, fc, buf) := by
  unfold runHEADER
  rw [if_pos (by simp [hlc])]
  rw [if_pos hbl]
  simp

/-- The HEADER arm reading an eight-byte extended length. -/
theorem runHEADER_ext8 (fc : FrameCodec) (buf : List Nat) (bl : Nat)
    (hlc : fc.length_code = 127) (hbl : ¬ (bl < fc.min_len + 8)) :
    runHEADER fc buf bl =
      runHEADERcheck { fc with
        min_len := fc.min_len + 8, payload_length := readBE (buf.take 8),
        state := DecodeState.LENGTH } (buf.drop 8) bl := by
  unfold runHEADER
  rw [if_neg (by simp [hlc]), if_pos (by simp [hlc])]
  rw [if_neg hbl]

/-- The HEADER arm stalling on an eight-byte extended length, with min_len restored. -/
theorem runHEADER_ext8_stall (fc : FrameCodec) (buf : List Nat) (bl : Nat)
    (hlc : fc.length_code = 127) (hbl : bl < fc.min_len + 8) :
    runHEADER fc buf bl = .ok (none, fc, buf) := by
  unfold runHEADER
  rw [if_neg (by simp [hlc]), if_pos (by simp [hlc])]
  rw [if_pos hbl]
  simp

/-- The control-length check passing. -/
theorem runHEADERcheck_pass (fc : FrameCodec) (buf : List Nat) (bl : Nat)
    (h : ¬ (125 < fc.payload_length ∧ fc.opcode.is_control = true)) :
    runHEADERcheck fc buf bl = runLENGTH fc buf bl := by
  unfold runHEADERcheck
  rw [if_neg h]

/-- The LENGTH arm reading the four mask-key bytes. -/
theorem runLENGTH_masked (fc : FrameCodec) (buf : List Nat) (bl : Nat)
    (hm : fc.masked = true) (hbl : ¬ (bl < fc.min_len + 4)) :
    runLENGTH fc buf bl =
      runMASK { fc with
        min_len := fc.min_len + 4, mask_key := readBE (buf.take 4),
        state := DecodeState.MASK } (buf.drop 4) bl := by
  unfold runLENGTH
  rw [if_pos hm]
  rw [if_neg hbl]

/-- The LENGTH arm stalling on the mask key, with min_len restored. -/
theorem runLENGTH_masked_stall (fc : FrameCodec) (buf : List Nat) (bl : Nat)
    (hm : fc.masked = true) (hbl : bl < fc.min_len + 4) :
    runLENGTH fc buf bl = .ok (none, fc, buf) := by
  unfold runLENGTH
  rw [if_pos hm]
  rw [if_pos hbl]
  simp

/-- The LENGTH arm for an unmasked frame: zero mask, no bytes drained. -/
theorem runLENGTH_unmasked (fc : FrameCodec) (buf : List Nat) (bl : Nat)
    (hm : fc.masked = false) :
    runLENGTH fc buf bl =
      runMASK { fc with mask_key := 0, state := DecodeState.MASK } buf bl := by
  unfold runLENGTH
  rw [if_neg (by simp [hm])]

/-- The MASK arm with the whole masked payload buffered: drain, unmask, emit. -/
theorem runMASK_full_masked (fc : FrameCodec) (buf : List Nat) (bl : Nat)
    (hbl : ¬ (bl < fc.min_len + fc.payload_length)) (hL : 0 < fc.payload_length)
    (hm : fc.masked = true) :
    runMASK fc buf bl =
      .ok (some (toFrame { fc with
          min_len := fc.min_len + fc.payload_length,
          application_data := some (apply_mask (buf.take fc.payload_length) fc.mask_key),
          state := DecodeState.FULL }),
        { fc with
          min_len := fc.min_len + fc.payload_length,
          application_data := some (apply_mask (buf.take fc.payload_length) fc.mask_key),
          state := DecodeState.FULL },
        buf.drop fc.payload_length) := by
  unfold runMASK
  rw [if_neg hbl]
  rw [if_pos hL]
  rw [if_pos hm]
  rfl

/-- The MASK arm with a zero-length payload: nothing is drained, the masking branch and
its error are skipped entirely, and the frame is emitted. -/
theorem runMASK_full_zero (fc : FrameCodec) (buf : List Nat) (bl : Nat)
    (hbl : ¬ (bl < fc.min_len + fc.payload_length)) (hL : fc.payload_length = 0) :
    runMASK fc buf bl =
      .ok (some (toFrame { fc with state := DecodeState.FULL }),
        { fc with state := DecodeState.FULL }, buf) := by
  unfold runMASK
  rw [if_neg hbl]
  rw [if_neg (by simp [hL])]
  simp [runFULL, hL]

/-- The MASK arm stalling on a non-Text frame: plain NeedsMore. -/
theorem runMASK_stall_nontext (fc : FrameCodec) (buf : List Nat) (bl : Nat)
    (hbl : bl < fc.min_len + fc.payload_length)
    (ht : (fc.opcode == OpCode.Text) = false) :
    runMASK fc buf bl = .ok (none, fc, buf) := by
  unfold runMASK
  rw [if_pos hbl]
  rw [if_neg (by simp [ht])]
  simp

/-- The MASK arm stalling on a masked Text frame whose unmasked prefix is not invalid:
NeedsMore after the early validation. -/
theorem runMASK_stall_text_ok (fc : FrameCodec) (buf : List Nat) (bl : Nat)
    (hbl : bl < fc.min_len + fc.payload_length)
    (ht : fc.opcode = OpCode.Text) (hm : fc.masked = true)
    (hv : utf8validate (apply_mask buf fc.mask_key) ≠ .invalid) :
    runMASK fc buf bl = .ok (none, fc, buf) := by
  unfold runMASK
  rw [if_pos hbl]
  rw [if_pos (by simp [ht])]
  rw [if_pos hm]
  rcases h : utf8validate (apply_mask buf fc.mask_key) with _ | _ | _
  · simp [h]
  · simp [h]
  · exact absurd h hv

/-- The MASK arm stalling on a masked Text frame whose unmasked prefix is invalid: the
early UTF-8 rejection. -/
theorem runMASK_stall_text_invalid (fc : FrameCodec) (buf : List Nat) (bl : Nat)
    (hbl : bl < fc.min_len + fc.payload_length)
    (ht : fc.opcode = OpCode.Text) (hm : fc.masked = true)
    (hv : utf8validate (apply_mask buf fc.mask_key) = .invalid) :
    runMASK fc buf bl = .error "error during UTF-8 validation" := by
  unfold runMASK
  rw [if_pos hbl]
  rw [if_pos (by simp [ht])]
  rw [if_pos hm]
  simp [hv]

/-- C1: the claim fails on the code.  After decode emits a complete frame the state is
left at FULL rather than reset to NONE, so a second call on the buffered bytes of the
next frame re-emits the first frame (mask key 1) without consuming anything, instead of
parsing the second frame (mask key 2). -/
theorem c1_full_state_not_reset :
    decode fcServer (ping1 ++ ping2) = .ok (some pingFrame1, fcAfterPing1, ping2) ∧
    fcAfterPing1.state = DecodeState.FULL ∧
    decode fcAfterPing1 ping2 =
      .ok (some pingFrame1, { fcAfterPing1 with min_len := 0 }, ping2) :=
  ⟨rfl, rfl, rfl⟩

/-- C3: the claim is right and the code is wrong.  An unmasked Binary frame with one
buffered payload byte, decoded in the mode that expects unmasked server frames, hits the
Err branch instead of finalising the frame with a zero mask and the verbatim payload. -/
theorem c3_unmasked_payload_rejected :
    decode FrameCodec.default [0x82, 0x01, 0xAB] = .error "cannot unmask data" := rfl

/-- C2: the claim fails on the code.  Encoding a masked frame appends the plaintext
payload byte 0xFF verbatim after the mask-key bytes; the claim requires the masked
ciphertext 0xFF XOR 0x01 = 0xFE there instead. -/
theorem c2_encode_leaves_payload_plaintext :
    encode frameC2 [] = [0x82, 0x81, 0x01, 0x02, 0x03, 0x04, 0xFF] ∧
    encode frameC2 [] ≠
      [0x82, 0x81, 0x01, 0x02, 0x03, 0x04] ++ apply_mask [0xFF] 0x01020304 :=
  ⟨rfl, by decide⟩

/-- C4: the claim fails on the code.  decode(encode(F)) re-applies the mask to the
verbatim payload written by encode, so the round trip returns the frame with payload
XOR mask-pattern, not F: payload byte 0 comes back as 1 under mask 0x01020304 even
though the mask key itself is preserved exactly. -/
theorem c4_roundtrip_fails :
    decodedFrame (decode fcServer (encode frameC4 [])) = some frameC4degraded ∧
    frameC4degraded ≠ frameC4 :=
  ⟨rfl, by decide⟩

/-- C5: the claim fails on the code.  Feeding two concatenated Ping frames split at the
frame boundary yields the first frame twice (the FULL state is never reset), while the
whole buffer decoded in one call yields it once; the two frame sequences differ. -/
theorem c5_chunking_not_independent :
    feedChunks fcServer [] [ping1, ping2] =
      .ok ([pingFrame1, pingFrame1], { fcAfterPing1 with min_len := 0 }, ping2) ∧
    feedChunks fcServer [] [ping1 ++ ping2] = .ok ([pingFrame1], fcAfterPing1, ping2) ∧
    ([pingFrame1, pingFrame1] : List Frame) ≠ [pingFrame1] :=
  ⟨rfl, rfl, by decide⟩

/-- C6: the claim fails on the code.  A masked frame decoded in client mode (peer is a
server, client flag false) is not rejected: the empty masked Ping decodes to a frame and
no error is raised, although the claim requires a protocol violation here. -/
theorem c6_masked_frame_accepted_in_client_mode :
    decodedFrame (decode FrameCodec.default ping1) = some pingFrame1 ∧
    hasFailed (decode FrameCodec.default ping1) = false :=
  ⟨rfl, rfl⟩

/-- C7: the claim fails on the code.  When the complete payload of a masked Text frame
is already buffered, decode never runs the UTF-8 validator: the invalid byte 0xFF is
emitted inside a finished frame and no InvalidUtf8 failure occurs, for this chunking in
which all payload bytes arrive together. -/
theorem c7_full_payload_skips_utf8_validation :
    decodedFrame (decode fcServer [0x81, 0x81, 0x00, 0x00, 0x00, 0x00, 0xFF]) =
      some frameC7 ∧
    hasFailed (decode fcServer [0x81, 0x81, 0x00, 0x00, 0x00, 0x00, 0xFF]) = false :=
  ⟨rfl, rfl⟩

/-- C8: the claim fails on the code.  An 8-byte extended length with the most
significant bit set is accepted: decode records payload_length 2^63 + 1 and returns
NeedsMore awaiting that many payload bytes, instead of failing. -/
theorem c8_high_bit_length_accepted :
    hasFailed (decode fcServer c8input) = false ∧
    decodedFrame (decode fcServer c8input) = none ∧
    (codecAfter (decode fcServer c8input)).map FrameCodec.payload_length =
      some (2 ^ 63 + 1) :=
  ⟨rfl, rfl, rfl⟩


/-- C9: decoding any control frame fails when the fin bit is clear, or when the decoded
payload length exceeds 125 under the 16-bit or 64-bit extended length encodings (the
inline encoding cannot exceed 125). -/
theorem c9_control_frame_rules (fc : FrameCodec) (b0 b1 l0 l1 m0 m1 m2 m3 m4 m5 m6 m7 : Nat)
    (rest : List Nat) (hstate : fc.state = DecodeState.NONE)
    (hctl : (OpCode.fromNat (b0 &&& 0x0F)).is_control = true) :
    (b0 &&& 0x80 = 0 → hasFailed (decode fc (b0 :: b1 :: rest)) = true) ∧
    (b1 &&& 0x7F = 126 → 125 < readBE [l0, l1] →
      hasFailed (decode fc (b0 :: b1 :: l0 :: l1 :: rest)) = true) ∧
    (b1 &&& 0x7F = 127 → 125 < readBE [m0, m1, m2, m3, m4, m5, m6, m7] →
      hasFailed (decode fc
        (b0 :: b1 :: m0 :: m1 :: m2 :: m3 :: m4 :: m5 :: m6 :: m7 :: rest)) = true) := by
  refine ⟨?_, ?_, ?_⟩
  · intro hfin
    unfold decode
    simp only [List.length_cons, hstate]
    rw [if_neg (by simp)]
    unfold runNONE
    rw [if_neg (by simp)]
    simp only [List.getD_cons_zero, List.getD_cons_succ, List.drop_succ_cons,
      List.drop_zero]
    split
    · rfl
    · split
      · rfl
      · split
        · rfl
        · split
          · rfl
          · rw [if_pos (by simp [hctl, hfin])]
            rfl
  · intro hlc hlen
    unfold decode
    simp only [List.length_cons, hstate]
    rw [if_neg (by simp)]
    unfold runNONE
    rw [if_neg (by simp)]
    simp only [List.getD_cons_zero, List.getD_cons_succ, List.drop_succ_cons,
      List.drop_zero]
    split
    · rfl
    · split
      · rfl
      · split
        · rfl
        · split
          · rfl
          · split
            · rfl
            · split
              · rfl
              · unfold runHEADER
                rw [if_pos (by simp [hlc])]
                rw [if_neg (by simp)]
                simp only [List.take_succ_cons, List.take_zero, List.drop_succ_cons,
                  List.drop_zero]
                unfold runHEADERcheck
                rw [if_pos ⟨hlen, hctl⟩]
                rfl
  · intro hlc hlen
    unfold decode
    simp only [List.length_cons, hstate]
    rw [if_neg (by simp)]
    unfold runNONE
    rw [if_neg (by simp)]
    simp only [List.getD_cons_zero, List.getD_cons_succ, List.drop_succ_cons,
      List.drop_zero]
    split
    · rfl
    · split
      · rfl
      · split
        · rfl
        · split
          · rfl
          · split
            · rfl
            · split
              · rfl
              · unfold runHEADER
                rw [if_neg (by simp [hlc])]
                rw [if_pos (by simp [hlc])]
                rw [if_neg (by simp)]
                simp only [List.take_succ_cons, List.take_zero, List.drop_succ_cons,
                  List.drop_zero]
                unfold runHEADERcheck
                rw [if_pos ⟨hlen, hctl⟩]
                rfl


/-- Numeric helper: the length-code mask clears the top bit of 0x80. -/
theorem and_128_127 : (128 : Nat) &&& 127 = 0 := by decide

/-- Numeric helper: the mask bit of 0x80 survives the 0x80 test. -/
theorem and_128_128 : (128 : Nat) &&& 128 = 128 := by decide

/-- Numeric helper: the length-code mask of 0 is 0. -/
theorem and_0_127 : (0 : Nat) &&& 127 = 0 := by decide

/-- Numeric helper: the mask bit of 0 is clear. -/
theorem and_0_128 : (0 : Nat) &&& 128 = 0 := by decide

/-- C10: a frame whose decoded payload length is zero finalises with application_data
none, whether the frame is masked or, with a codec in client mode, unmasked: the
masking step together with its error branch is skipped entirely. -/
theorem c10_empty_payload_skips_masking (fc : FrameCodec) (b0 k0 k1 k2 k3 : Nat) (rest : List Nat)
    (hstate : fc.state = DecodeState.NONE) (happ : fc.application_data = none)
    (h1 : b0 &&& 0x40 = 0) (h2 : b0 &&& 0x20 = 0) (h3 : b0 &&& 0x10 = 0)
    (hop : (OpCode.fromNat (b0 &&& 0x0F)).is_invalid = false)
    (hctl : (OpCode.fromNat (b0 &&& 0x0F)).is_control = true → b0 &&& 0x80 ≠ 0) :
    (decodedFrame (decode fc (b0 :: 0x80 :: k0 :: k1 :: k2 :: k3 :: rest)) = some
      { fin := b0 &&& 0x80 != 0, rsv1 := false, rsv2 := false, rsv3 := false,
        opcode := OpCode.fromNat (b0 &&& 0x0F), masked := true,
        mask := readBE [k0, k1, k2, k3], payload_length := 0,
        application_data := none, extension_data := fc.extension_data } ∧
     bufAfter (decode fc (b0 :: 0x80 :: k0 :: k1 :: k2 :: k3 :: rest)) = some rest) ∧
    (fc.client = false →
      decodedFrame (decode fc (b0 :: 0x00 :: rest)) = some
        { fin := b0 &&& 0x80 != 0, rsv1 := false, rsv2 := false, rsv3 := false,
          opcode := OpCode.fromNat (b0 &&& 0x0F), masked := false, mask := 0,
          payload_length := 0, application_data := none,
          extension_data := fc.extension_data } ∧
      bufAfter (decode fc (b0 :: 0x00 :: rest)) = some rest) := by
  constructor
  · rw [decode_dispatch_NONE fc (b0 :: 0x80 :: k0 :: k1 :: k2 :: k3 :: rest) hstate
      (by simp)]
    rw [runNONE_ok _ b0 0x80 (k0 :: k1 :: k2 :: k3 :: rest) _
      (by simp) (fun a => absurd h1 a) (fun a => absurd h2 a) (fun a => absurd h3 a)
      hop hctl (fun h => absurd h (by decide))]
    rw [runHEADER_literal _ _ _ (by simp [headerFC, and_128_127])
      (by simp [headerFC, and_128_127])]
    rw [runHEADERcheck_pass _ _ _ (fun h => absurd h.1 (by simp [headerFC, and_128_127]))]
    rw [runLENGTH_masked _ _ _ (by simp [headerFC, and_128_128])
      (by simp [headerFC, and_128_127, List.length_cons])]
    simp only [List.take_succ_cons, List.take_zero, List.drop_succ_cons, List.drop_zero]
    rw [runMASK_full_zero _ _ _
      (by simp [headerFC, and_128_127, List.length_cons])
      (by simp [headerFC, and_128_127])]
    simp [decodedFrame, bufAfter, toFrame, headerFC, h1, h2, h3, happ, and_128_127,
      and_128_128]
  · intro hclient
    rw [decode_dispatch_NONE fc (b0 :: 0x00 :: rest) hstate (by simp)]
    rw [runNONE_ok _ b0 0x00 rest _
      (by simp) (fun a => absurd h1 a) (fun a => absurd h2 a) (fun a => absurd h3 a)
      hop hctl (fun _ => by simp [hclient])]
    rw [runHEADER_literal _ _ _ (by simp [headerFC, and_0_127])
      (by simp [headerFC, and_0_127])]
    rw [runHEADERcheck_pass _ _ _ (fun h => absurd h.1 (by simp [headerFC, and_0_127]))]
    rw [runLENGTH_unmasked _ _ _ (by simp [headerFC, and_0_128])]
    rw [runMASK_full_zero _ _ _
      (by simp [headerFC, and_0_127, List.length_cons])
      (by simp [headerFC, and_0_127])]
    simp [decodedFrame, bufAfter, toFrame, headerFC, h1, h2, h3, happ, and_0_127,
      and_0_128]

/-- C8 (amended): with length code 127, decode reads the next eight bytes as a
big-endian u64 and records the value as payload_length without any high-bit check;
the call does not fail and returns NeedsMore awaiting the payload. -/
theorem c8_extended_length_no_high_bit_check (fc : FrameCodec) (b0 b1 m0 m1 m2 m3 m4 m5 m6 m7 : Nat)
    (hstate : fc.state = DecodeState.NONE)
    (h1 : b0 &&& 0x40 = 0) (h2 : b0 &&& 0x20 = 0) (h3 : b0 &&& 0x10 = 0)
    (hop : (OpCode.fromNat (b0 &&& 0x0F)).is_invalid = false)
    (hnc : (OpCode.fromNat (b0 &&& 0x0F)).is_control = false)
    (hmasked : b1 &&& 0x80 ≠ 0)
    (hlc : b1 &&& 0x7F = 127) :
    hasFailed (decode fc [b0, b1, m0, m1, m2, m3, m4, m5, m6, m7]) = false ∧
    (codecAfter (decode fc [b0, b1, m0, m1, m2, m3, m4, m5, m6, m7])).map
      FrameCodec.payload_length = some (readBE [m0, m1, m2, m3, m4, m5, m6, m7]) ∧
    decodedFrame (decode fc [b0, b1, m0, m1, m2, m3, m4, m5, m6, m7]) = none := by
  rw [decode_dispatch_NONE fc _ hstate (by simp)]
  rw [runNONE_ok _ b0 b1 [m0, m1, m2, m3, m4, m5, m6, m7] _
    (by simp) (fun a => absurd h1 a) (fun a => absurd h2 a) (fun a => absurd h3 a)
    hop (fun a => absurd a (by simp [hnc])) (fun h => absurd h hmasked)]
  rw [runHEADER_ext8 _ _ _ (by simp [headerFC, hlc])
    (by simp [headerFC, List.length_cons])]
  simp only [List.take_succ_cons, List.take_zero, List.drop_succ_cons, List.drop_zero]
  rw [runHEADERcheck_pass _ _ _ (fun h => absurd h.2 (by simp [headerFC, hnc]))]
  rw [runLENGTH_masked_stall _ _ _ (by simp [headerFC, hmasked])
    (by simp [headerFC, List.length_cons])]
  simp [hasFailed, codecAfter, decodedFrame, headerFC]

/-- C7 (amended): the early UTF-8 rejection runs only when decode is invoked while the
buffered payload is a strict prefix of a masked Text frame payload; an invalid unmasked
prefix then fails decoding.  When the whole payload is buffered at once no validation
runs at all, as the counterexample shows. -/
theorem c7_partial_masked_text_invalid_fails (fc : FrameCodec) (b0 b1 k0 k1 k2 k3 : Nat) (p : List Nat)
    (hstate : fc.state = DecodeState.NONE)
    (h1 : b0 &&& 0x40 = 0) (h2 : b0 &&& 0x20 = 0) (h3 : b0 &&& 0x10 = 0)
    (hop : b0 &&& 0x0F = 1)
    (hmasked : b1 &&& 0x80 ≠ 0)
    (hlc : b1 &&& 0x7F < 126)
    (hp : p.length < b1 &&& 0x7F)
    (hinv : utf8validate (apply_mask p (readBE [k0, k1, k2, k3])) = .invalid) :
    decode fc (b0 :: b1 :: k0 :: k1 :: k2 :: k3 :: p) =
      .error "error during UTF-8 validation" := by
  rw [decode_dispatch_NONE fc _ hstate (by simp)]
  rw [runNONE_ok _ b0 b1 (k0 :: k1 :: k2 :: k3 :: p) _
    (by simp) (fun a => absurd h1 a) (fun a => absurd h2 a) (fun a => absurd h3 a)
    (by rw [hop]; decide) (fun a => absurd a (by rw [hop]; decide))
    (fun h => absurd h hmasked)]
  rw [runHEADER_literal _ _ _ (by simp [headerFC]; omega) (by simp [headerFC]; omega)]
  rw [runHEADERcheck_pass _ _ _ (fun h => absurd h.2 (by simp [headerFC]; rw [hop]; decide))]
  rw [runLENGTH_masked _ _ _ (by simp [headerFC, hmasked])
    (by simp only [headerFC, List.length_cons]; omega)]
  simp only [List.take_succ_cons, List.take_zero, List.drop_succ_cons, List.drop_zero]
  rw [runMASK_stall_text_invalid _ _ _
    (by simp only [headerFC, List.length_cons]; omega)
    (by simp [headerFC]; rw [hop]; decide)
    (by simp [headerFC, hmasked]) hinv]

/-- C6 (amended): the code enforces only one direction of the mask rule.  Every header
whose masked bit is clear, decoded by a codec with the client flag set (frames arrive
from a client, so we are the server), makes decode fail; the opposite direction is not
checked, as the counterexample shows. -/
theorem c6_unmasked_in_server_mode_fails (fc : FrameCodec) (b0 b1 : Nat)
    (rest : List Nat) (hstate : fc.state = DecodeState.NONE) (hclient : fc.client = true)
    (hmask : b1 &&& 0x80 = 0) :
    hasFailed (decode fc (b0 :: b1 :: rest)) = true := by
  unfold decode
  simp only [List.length_cons, hstate]
  rw [if_neg (by simp)]
  unfold runNONE
  rw [if_neg (by simp)]
  simp only [List.getD_cons_zero, List.getD_cons_succ, List.drop_succ_cons,
    List.drop_zero]
  split
  · rfl
  · split
    · rfl
    · split
      · rfl
      · split
        · rfl
        · split
          · rfl
          · rw [if_pos]
            · rfl
            · simp [hmask, hclient]

/-- C2 (amended): for every masked frame carrying application data, encode appends the
mask-key bytes and then the application data verbatim: the payload is not XORed inside
encode, the caller is expected to pre-mask it. -/
theorem c2_masked_encode_layout (msg : Frame) (buf l : List Nat)
    (hm : msg.masked = true) (ha : msg.application_data = some l) :
    encode msg buf =
      buf ++ [first_byte msg] ++ length_bytes msg ++ be32 msg.mask ++ l := by
  simp [encode, hm, ha, List.append_assoc]

/-- C2 witness: the layout theorem applied to the concrete masked frame frameC2. -/
theorem c2_masked_encode_layout_witness :
    encode frameC2 [] =
      [] ++ [first_byte frameC2] ++ length_bytes frameC2 ++ be32 frameC2.mask ++
        [0xFF] :=
  c2_masked_encode_layout frameC2 [] [0xFF] rfl rfl

/-- C6 witness: the NO_MASK test bytes 0x89 0x00, decoded in server mode, fail. -/
theorem c6_unmasked_in_server_mode_fails_witness :
    hasFailed (decode fcServer [0x89, 0x00]) = true :=
  c6_unmasked_in_server_mode_fails fcServer 0x89 0x00 [] rfl rfl rfl

/-- C9 witness: a fragmented Close header, a 16-bit Ping length of 4096 and a 64-bit
Ping length of 4096 all fail. -/
theorem c9_control_frame_rules_witness :
    hasFailed (decode fcServer [0x08, 0x00]) = true ∧
    hasFailed (decode fcServer [0x89, 0xFE, 0x10, 0x00]) = true ∧
    hasFailed (decode fcServer
      [0x89, 0xFF, 0x00, 0x00, 0x00, 0x00, 0x00, 0x00, 0x10, 0x00]) = true :=
  ⟨(c9_control_frame_rules fcServer 0x08 0x00 0 0 0 0 0 0 0 0 0 0 [] rfl
      (by decide)).1 (by decide),
   (c9_control_frame_rules fcServer 0x89 0xFE 0x10 0x00 0 0 0 0 0 0 0 0 [] rfl
      (by decide)).2.1 (by decide) (by decide),
   (c9_control_frame_rules fcServer 0x89 0xFF 0 0 0 0 0 0 0 0 0x10 0x00 [] rfl
      (by decide)).2.2 (by decide) (by decide)⟩

/-- C10 witness: the decode_ping_no_data test frame, and an unmasked empty Binary frame
in client mode, both finalise with application_data none. -/
theorem c10_empty_payload_skips_masking_witness :
    decodedFrame (decode fcServer ping1) = some pingFrame1 ∧
    decodedFrame (decode FrameCodec.default [0x82, 0x00]) = some
      { fin := true, rsv1 := false, rsv2 := false, rsv3 := false, opcode := .Binary,
        masked := false, mask := 0, payload_length := 0, application_data := none,
        extension_data := none } :=
  ⟨((c10_empty_payload_skips_masking fcServer 0x89 0 0 0 1 [] rfl rfl rfl rfl rfl rfl
      (fun _ => by decide)).1).1,
   ((c10_empty_payload_skips_masking FrameCodec.default 0x82 0 0 0 0 [] rfl rfl rfl rfl
      rfl rfl (fun _ => by decide)).2 rfl).1⟩

/-- C8 witness: the amended theorem applied to the concrete high-bit length input. -/
theorem c8_extended_length_no_high_bit_check_witness :
    hasFailed (decode fcServer c8input) = false ∧
    (codecAfter (decode fcServer c8input)).map FrameCodec.payload_length =
      some (readBE [0x80, 0x00, 0x00, 0x00, 0x00, 0x00, 0x00, 0x01]) :=
  ⟨(c8_extended_length_no_high_bit_check fcServer 0x82 0xFF 0x80 0 0 0 0 0 0 1 rfl rfl
      rfl rfl rfl rfl (by decide) rfl).1,
   (c8_extended_length_no_high_bit_check fcServer 0x82 0xFF 0x80 0 0 0 0 0 0 1 rfl rfl
      rfl rfl rfl rfl (by decide) rfl).2.1⟩

/-- C7 witness: a masked Text frame announcing two payload bytes with only the invalid
byte 0xFF buffered fails during the early validation. -/
theorem c7_partial_masked_text_invalid_fails_witness :
    decode fcServer [0x81, 0x82, 0x00, 0x00, 0x00, 0x00, 0xFF] =
      .error "error during UTF-8 validation" :=
  c7_partial_masked_text_invalid_fails fcServer 0x81 0x82 0 0 0 0 [0xFF] rfl rfl rfl
    rfl rfl (by decide) (by decide) (by decide) (by decide)


/-- Big-endian read of be16 inverts the write for 16-bit values. -/
theorem readBE_be16 (n : Nat) (h : n < 2 ^ 16) : readBE (be16 n) = n := by
  simp [readBE, be16, List.foldl_cons, List.foldl_nil]
  omega

/-- Big-endian read of be32 inverts the write for 32-bit values. -/
theorem readBE_be32 (n : Nat) (h : n < 2 ^ 32) : readBE (be32 n) = n := by
  simp [readBE, be32, List.foldl_cons, List.foldl_nil]
  omega

/-- Big-endian read of be64 inverts the write for 64-bit values. -/
theorem readBE_be64 (n : Nat) (h : n < 2 ^ 64) : readBE (be64 n) = n := by
  simp [readBE, be64, List.foldl_cons, List.foldl_nil]
  omega

/-- be16 writes two bytes. -/
theorem be16_length (n : Nat) : (be16 n).length = 2 := rfl

/-- be32 writes four bytes. -/
theorem be32_length (n : Nat) : (be32 n).length = 4 := rfl

/-- be64 writes eight bytes. -/
theorem be64_length (n : Nat) : (be64 n).length = 8 := rfl

/-- Setting the top bit keeps it visible and leaves the low seven bits alone, for any
length code below 128. -/
theorem lor128 (k : Nat) (hk : k < 128) :
    (128 ||| k) &&& 128 = 128 ∧ (128 ||| k) &&& 127 = k := by
  interval_cases k <;> exact ⟨by decide, by decide⟩

/-- A flag bit encoded as an if survives the bit test. -/
theorem bne_if_bit (b : Bool) (k : Nat) (hk : k ≠ 0) : ((if b then k else 0) != 0) = b := by
  cases b <;> simp [hk]

/-- Bit extraction from the assembled first byte, for any opcode value below 16. -/
theorem fb_bits (fin r1 r2 r3 : Bool) (k : Nat) (hk : k < 16) :
    (((((if fin then (128 : Nat) else 0) ||| (if r1 then 64 else 0)) |||
      (if r2 then 32 else 0)) ||| (if r3 then 16 else 0)) ||| k) &&& 128 =
        (if fin then 128 else 0) ∧
    (((((if fin then (128 : Nat) else 0) ||| (if r1 then 64 else 0)) |||
      (if r2 then 32 else 0)) ||| (if r3 then 16 else 0)) ||| k) &&& 64 =
        (if r1 then 64 else 0) ∧
    (((((if fin then (128 : Nat) else 0) ||| (if r1 then 64 else 0)) |||
      (if r2 then 32 else 0)) ||| (if r3 then 16 else 0)) ||| k) &&& 32 =
        (if r2 then 32 else 0) ∧
    (((((if fin then (128 : Nat) else 0) ||| (if r1 then 64 else 0)) |||
      (if r2 then 32 else 0)) ||| (if r3 then 16 else 0)) ||| k) &&& 16 =
        (if r3 then 16 else 0) ∧
    (((((if fin then (128 : Nat) else 0) ||| (if r1 then 64 else 0)) |||
      (if r2 then 32 else 0)) ||| (if r3 then 16 else 0)) ||| k) &&& 15 = k := by
  cases fin <;> cases r1 <;> cases r2 <;> cases r3 <;> (interval_cases k <;> decide)

/-- Valid opcodes have wire values below 16. -/
theorem toNat_lt (op : OpCode) (hop : op.is_invalid = false) : op.toNat < 16 := by
  cases op
  case Reserved c => exact absurd hop (by simp [OpCode.is_invalid])
  all_goals decide

/-- Bit extraction from the first byte written by encode, for valid opcodes. -/
theorem fb_all (msg : Frame) (hop : msg.opcode.is_invalid = false) :
    first_byte msg &&& 0x80 = (if msg.fin then 0x80 else 0) ∧
    first_byte msg &&& 0x40 = (if msg.rsv1 then 0x40 else 0) ∧
    first_byte msg &&& 0x20 = (if msg.rsv2 then 0x20 else 0) ∧
    first_byte msg &&& 0x10 = (if msg.rsv3 then 0x10 else 0) ∧
    first_byte msg &&& 0x0F = msg.opcode.toNat := by
  unfold first_byte
  exact fb_bits msg.fin msg.rsv1 msg.rsv2 msg.rsv3 msg.opcode.toNat
    (toNat_lt msg.opcode hop)

/-- Round trip of the opcode wire value for valid opcodes. -/
theorem fromNat_toNat (op : OpCode) (hop : op.is_invalid = false) :
    OpCode.fromNat op.toNat = op := by
  cases op
  case Reserved c => exact absurd hop (by simp [OpCode.is_invalid])
  all_goals rfl


/-- Congruence helper for a Ready decode result. -/
theorem okFrameCongr {f g : Frame} {c : FrameCodec} {b : List Nat} (h : f = g) :
    (Except.ok (some f, c, b) : DecodeResult) = .ok (some g, c, b) := by rw [h]

theorem decode_encode_zero (fc : FrameCodec) (msg : Frame) (extra : List Nat)
    (hstate : fc.state = DecodeState.NONE)
    (happ : fc.application_data = none) (hext : fc.extension_data = none)
    (hm : msg.masked = true)
    (hop : msg.opcode.is_invalid = false)
    (hmext : msg.extension_data = none)
    (hr1 : msg.rsv1 = true → fc.reserved_bits &&& 0x4 ≠ 0)
    (hr2 : msg.rsv2 = true → fc.reserved_bits &&& 0x2 ≠ 0)
    (hr3 : msg.rsv3 = true → fc.reserved_bits &&& 0x1 ≠ 0)
    (hctl : msg.opcode.is_control = true → msg.fin = true ∧ msg.payload_length ≤ 125)
    (hmask : msg.mask < 2 ^ 32)
    (had : msg.application_data = none)
    (hl0 : msg.payload_length = 0) :
    ∃ fcF, decode fc (encode msg [] ++ extra) =
        .ok (some (frameUnmasked msg), fcF, extra) ∧ fcF.state = DecodeState.FULL := by
  have hbuf : encode msg [] ++ extra =
      first_byte msg :: ((128 ||| 0) :: (be32 msg.mask ++ extra)) := by
    simp [encode, length_bytes, hm, had, hl0]
  rw [hbuf]
  rw [decode_dispatch_NONE _ _ hstate (by simp)]
  rw [runNONE_ok _ (first_byte msg) (128 ||| 0) _ _ (by simp) ?hr1z ?hr2z ?hr3z ?hopz
    ?hfragz ?hmz]
  case hr1z =>
    intro a
    rcases h1 : msg.rsv1
    · rw [(fb_all msg hop).2.1, h1] at a
      exact absurd rfl a
    · exact hr1 h1
  case hr2z =>
    intro a
    rcases h1 : msg.rsv2
    · rw [(fb_all msg hop).2.2.1, h1] at a
      exact absurd rfl a
    · exact hr2 h1
  case hr3z =>
    intro a
    rcases h1 : msg.rsv3
    · rw [(fb_all msg hop).2.2.2.1, h1] at a
      exact absurd rfl a
    · exact hr3 h1
  case hopz =>
    rw [(fb_all msg hop).2.2.2.2, fromNat_toNat msg.opcode hop]
    exact hop
  case hfragz =>
    intro a
    rw [(fb_all msg hop).2.2.2.2, fromNat_toNat msg.opcode hop] at a
    rw [(fb_all msg hop).1, (hctl a).1]
    decide
  case hmz =>
    intro h
    rw [(lor128 0 (by decide)).1] at h
    exact absurd h (by decide)
  rw [runHEADER_literal _ _ _ (by simp [headerFC, and_128_127])
    (by simp [headerFC, and_128_127])]
  rw [runHEADERcheck_pass _ _ _
    (fun h => absurd h.1 (by simp [headerFC, and_128_127]))]
  rw [runLENGTH_masked _ _ _ (by simp [headerFC, and_128_128])
    (by simp [headerFC, List.length_cons, be32, List.length_append])]
  rw [List.take_left' (be32_length msg.mask), List.drop_left' (be32_length msg.mask),
    readBE_be32 msg.mask hmask]
  rw [runMASK_full_zero _ _ _ ?hblz ?hpz]
  case hblz =>
    simp [headerFC, and_128_127, List.length_cons, be32, List.length_append]
  case hpz =>
    simp [headerFC, and_128_127]
  refine ⟨_, okFrameCongr ?_, ?_⟩
  · simp [toFrame, frameUnmasked, headerFC, Frame.mk.injEq, (fb_all msg hop).1,
      (fb_all msg hop).2.1, (fb_all msg hop).2.2.1, (fb_all msg hop).2.2.2.1,
      (fb_all msg hop).2.2.2.2, fromNat_toNat msg.opcode hop,
      and_128_127, and_128_128, hm, hl0, hext, hmext, happ, had, bne_if_bit]
  · simp [headerFC]


/-- The MASK arm with the payload exactly at the front of the buffer. -/
theorem runMASK_full_masked_split (fc : FrameCodec) (bl : Nat) (l rest : List Nat)
    (hbl : ¬ (bl < fc.min_len + fc.payload_length)) (hL : 0 < fc.payload_length)
    (hm : fc.masked = true) (hlen : l.length = fc.payload_length) :
    runMASK fc (l ++ rest) bl =
      .ok (some (toFrame { fc with
          min_len := fc.min_len + fc.payload_length,
          application_data := some (apply_mask l fc.mask_key),
          state := DecodeState.FULL }),
        { fc with
          min_len := fc.min_len + fc.payload_length,
          application_data := some (apply_mask l fc.mask_key),
          state := DecodeState.FULL },
        rest) := by
  rw [runMASK_full_masked _ _ _ hbl hL hm, List.take_left' hlen, List.drop_left' hlen]

theorem decode_encode_inline (fc : FrameCodec) (msg : Frame) (extra l : List Nat)
    (hstate : fc.state = DecodeState.NONE)
    (happ : fc.application_data = none) (hext : fc.extension_data = none)
    (hm : msg.masked = true)
    (hop : msg.opcode.is_invalid = false)
    (hmext : msg.extension_data = none)
    (hr1 : msg.rsv1 = true → fc.reserved_bits &&& 0x4 ≠ 0)
    (hr2 : msg.rsv2 = true → fc.reserved_bits &&& 0x2 ≠ 0)
    (hr3 : msg.rsv3 = true → fc.reserved_bits &&& 0x1 ≠ 0)
    (hctl : msg.opcode.is_control = true → msg.fin = true ∧ msg.payload_length ≤ 125)
    (hmask : msg.mask < 2 ^ 32)
    (had : msg.application_data = some l)
    (hlenl : l.length = msg.payload_length)
    (hpos : 0 < msg.payload_length)
    (hA : msg.payload_length < 126) :
    ∃ fcF, decode fc (encode msg [] ++ extra) =
        .ok (some (frameUnmasked msg), fcF, extra) ∧ fcF.state = DecodeState.FULL := by
  have hbuf : encode msg [] ++ extra = first_byte msg ::
      ((128 ||| msg.payload_length) :: (be32 msg.mask ++ (l ++ extra))) := by
    simp [encode, length_bytes, hm, had, hA]
  rw [hbuf]
  rw [decode_dispatch_NONE _ _ hstate (by simp)]
  rw [runNONE_ok _ (first_byte msg) (128 ||| msg.payload_length) _ _ (by simp)
    ?hr1i ?hr2i ?hr3i ?hopi ?hfragi ?hmi]
  case hr1i =>
    intro a
    rcases h1 : msg.rsv1
    · rw [(fb_all msg hop).2.1, h1] at a
      exact absurd rfl a
    · exact hr1 h1
  case hr2i =>
    intro a
    rcases h1 : msg.rsv2
    · rw [(fb_all msg hop).2.2.1, h1] at a
      exact absurd rfl a
    · exact hr2 h1
  case hr3i =>
    intro a
    rcases h1 : msg.rsv3
    · rw [(fb_all msg hop).2.2.2.1, h1] at a
      exact absurd rfl a
    · exact hr3 h1
  case hopi =>
    rw [(fb_all msg hop).2.2.2.2, fromNat_toNat msg.opcode hop]
    exact hop
  case hfragi =>
    intro a
    rw [(fb_all msg hop).2.2.2.2, fromNat_toNat msg.opcode hop] at a
    rw [(fb_all msg hop).1, (hctl a).1]
    decide
  case hmi =>
    intro h
    rw [(lor128 msg.payload_length (by omega)).1] at h
    exact absurd h (by decide)
  rw [runHEADER_literal _ _ _
    (by simp [headerFC, (lor128 msg.payload_length (by omega)).2]; omega)
    (by simp [headerFC, (lor128 msg.payload_length (by omega)).2]; omega)]
  rw [runHEADERcheck_pass _ _ _ ?hchki]
  case hchki =>
    intro h
    obtain ⟨ha, hb⟩ := h
    simp only [headerFC] at ha hb
    rw [(lor128 msg.payload_length (by omega)).2] at ha
    omega
  rw [runLENGTH_masked _ _ _
    (by simp [headerFC, (lor128 msg.payload_length (by omega)).1])
    (by simp [headerFC, be32, List.length_cons, List.length_append])]
  rw [List.take_left' (be32_length msg.mask), List.drop_left' (be32_length msg.mask),
    readBE_be32 msg.mask hmask]
  rw [runMASK_full_masked_split _ _ l extra ?hbli ?hposi
    (by simp [headerFC, (lor128 msg.payload_length (by omega)).1]) ?hleni]
  case hbli =>
    simp only [headerFC, List.length_cons, List.length_append, be32_length]
    rw [(lor128 msg.payload_length (by omega)).2]
    omega
  case hposi =>
    simp only [headerFC]
    rw [(lor128 msg.payload_length (by omega)).2]
    omega
  case hleni =>
    simp only [headerFC]
    rw [(lor128 msg.payload_length (by omega)).2]
    exact hlenl
  refine ⟨_, okFrameCongr ?_, ?_⟩
  · simp [toFrame, frameUnmasked, headerFC, Frame.mk.injEq, (fb_all msg hop).1,
      (fb_all msg hop).2.1, (fb_all msg hop).2.2.1, (fb_all msg hop).2.2.2.1,
      (fb_all msg hop).2.2.2.2, fromNat_toNat msg.opcode hop,
      (lor128 msg.payload_length (by omega)).1, (lor128 msg.payload_length (by omega)).2,
      hm, hext, hmext, happ, had, bne_if_bit]
  · simp [headerFC]


/-- Bits of the second byte announcing a 16-bit extended length on a masked frame. -/
theorem lor126_bits : ((128 : Nat) ||| 126) &&& 128 = 128 ∧ ((128 : Nat) ||| 126) &&& 127 = 126 := by
  exact ⟨by decide, by decide⟩

/-- Bits of the second byte announcing a 64-bit extended length on a masked frame. -/
theorem lor127_bits : ((128 : Nat) ||| 127) &&& 128 = 128 ∧ ((128 : Nat) ||| 127) &&& 127 = 127 := by
  exact ⟨by decide, by decide⟩

theorem decode_encode_ext2 (fc : FrameCodec) (msg : Frame) (extra l : List Nat)
    (hstate : fc.state = DecodeState.NONE)
    (happ : fc.application_data = none) (hext : fc.extension_data = none)
    (hm : msg.masked = true)
    (hop : msg.opcode.is_invalid = false)
    (hmext : msg.extension_data = none)
    (hr1 : msg.rsv1 = true → fc.reserved_bits &&& 0x4 ≠ 0)
    (hr2 : msg.rsv2 = true → fc.reserved_bits &&& 0x2 ≠ 0)
    (hr3 : msg.rsv3 = true → fc.reserved_bits &&& 0x1 ≠ 0)
    (hctl : msg.opcode.is_control = true → msg.fin = true ∧ msg.payload_length ≤ 125)
    (hmask : msg.mask < 2 ^ 32)
    (had : msg.application_data = some l)
    (hlenl : l.length = msg.payload_length)
    (hA : ¬ (msg.payload_length < 126))
    (hB : msg.payload_length < 65536) :
    ∃ fcF, decode fc (encode msg [] ++ extra) =
        .ok (some (frameUnmasked msg), fcF, extra) ∧ fcF.state = DecodeState.FULL := by
  have hbuf : encode msg [] ++ extra = first_byte msg :: ((128 ||| 126) ::
      (be16 msg.payload_length ++ (be32 msg.mask ++ (l ++ extra)))) := by
    simp [encode, length_bytes, hm, had, hA, hB]
  rw [hbuf]
  rw [decode_dispatch_NONE _ _ hstate (by simp)]
  rw [runNONE_ok _ (first_byte msg) (128 ||| 126) _ _ (by simp)
    ?hr1a ?hr2a ?hr3a ?hopa ?hfraga ?hma]
  case hr1a =>
    intro a
    rcases h1 : msg.rsv1
    · rw [(fb_all msg hop).2.1, h1] at a
      exact absurd rfl a
    · exact hr1 h1
  case hr2a =>
    intro a
    rcases h1 : msg.rsv2
    · rw [(fb_all msg hop).2.2.1, h1] at a
      exact absurd rfl a
    · exact hr2 h1
  case hr3a =>
    intro a
    rcases h1 : msg.rsv3
    · rw [(fb_all msg hop).2.2.2.1, h1] at a
      exact absurd rfl a
    · exact hr3 h1
  case hopa =>
    rw [(fb_all msg hop).2.2.2.2, fromNat_toNat msg.opcode hop]
    exact hop
  case hfraga =>
    intro a
    rw [(fb_all msg hop).2.2.2.2, fromNat_toNat msg.opcode hop] at a
    rw [(fb_all msg hop).1, (hctl a).1]
    decide
  case hma =>
    intro h
    exact absurd h (by decide)
  rw [runHEADER_ext2 _ _ _ (by simp only [headerFC]; decide)
    (by simp [headerFC, be16_length, be32_length, List.length_cons])]
  rw [List.take_left' (be16_length msg.payload_length),
    List.drop_left' (be16_length msg.payload_length),
    readBE_be16 msg.payload_length hB]
  rw [runHEADERcheck_pass _ _ _ ?hchka]
  case hchka =>
    intro h
    obtain ⟨ha, hb⟩ := h
    simp only [headerFC] at hb
    rw [(fb_all msg hop).2.2.2.2, fromNat_toNat msg.opcode hop] at hb
    have := (hctl hb).2
    omega
  rw [runLENGTH_masked _ _ _ (by simp only [headerFC]; decide)
    (by simp [headerFC, be16, be32, List.length_cons, List.length_append])]
  rw [List.take_left' (be32_length msg.mask), List.drop_left' (be32_length msg.mask),
    readBE_be32 msg.mask hmask]
  rw [runMASK_full_masked_split _ _ l extra ?hbla ?hposa
    (by simp only [headerFC]; decide) ?hlena]
  case hbla =>
    simp only [headerFC, List.length_cons, List.length_append, be16_length, be32_length]
    omega
  case hposa =>
    simp only [headerFC]
    omega
  case hlena =>
    simp only [headerFC]
    exact hlenl
  refine ⟨_, okFrameCongr ?_, ?_⟩
  · simp [toFrame, frameUnmasked, headerFC, Frame.mk.injEq, (fb_all msg hop).1,
      (fb_all msg hop).2.1, (fb_all msg hop).2.2.1, (fb_all msg hop).2.2.2.1,
      (fb_all msg hop).2.2.2.2, fromNat_toNat msg.opcode hop, lor126_bits.1,
      hm, hext, hmext, happ, had, bne_if_bit]
  · simp [headerFC]

theorem decode_encode_ext8 (fc : FrameCodec) (msg : Frame) (extra l : List Nat)
    (hstate : fc.state = DecodeState.NONE)
    (happ : fc.application_data = none) (hext : fc.extension_data = none)
    (hm : msg.masked = true)
    (hop : msg.opcode.is_invalid = false)
    (hmext : msg.extension_data = none)
    (hr1 : msg.rsv1 = true → fc.reserved_bits &&& 0x4 ≠ 0)
    (hr2 : msg.rsv2 = true → fc.reserved_bits &&& 0x2 ≠ 0)
    (hr3 : msg.rsv3 = true → fc.reserved_bits &&& 0x1 ≠ 0)
    (hctl : msg.opcode.is_control = true → msg.fin = true ∧ msg.payload_length ≤ 125)
    (hmask : msg.mask < 2 ^ 32)
    (hlen : msg.payload_length < 2 ^ 64)
    (had : msg.application_data = some l)
    (hlenl : l.length = msg.payload_length)
    (hA : ¬ (msg.payload_length < 126))
    (hB : ¬ (msg.payload_length < 65536)) :
    ∃ fcF, decode fc (encode msg [] ++ extra) =
        .ok (some (frameUnmasked msg), fcF, extra) ∧ fcF.state = DecodeState.FULL := by
  have hbuf : encode msg [] ++ extra = first_byte msg :: ((128 ||| 127) ::
      (be64 msg.payload_length ++ (be32 msg.mask ++ (l ++ extra)))) := by
    simp [encode, length_bytes, hm, had, hA, hB]
  rw [hbuf]
  rw [decode_dispatch_NONE _ _ hstate (by simp)]
  rw [runNONE_ok _ (first_byte msg) (128 ||| 127) _ _ (by simp)
    ?hr1b ?hr2b ?hr3b ?hopb ?hfragb ?hmb]
  case hr1b =>
    intro a
    rcases h1 : msg.rsv1
    · rw [(fb_all msg hop).2.1, h1] at a
      exact absurd rfl a
    · exact hr1 h1
  case hr2b =>
    intro a
    rcases h1 : msg.rsv2
    · rw [(fb_all msg hop).2.2.1, h1] at a
      exact absurd rfl a
    · exact hr2 h1
  case hr3b =>
    intro a
    rcases h1 : msg.rsv3
    · rw [(fb_all msg hop).2.2.2.1, h1] at a
      exact absurd rfl a
    · exact hr3 h1
  case hopb =>
    rw [(fb_all msg hop).2.2.2.2, fromNat_toNat msg.opcode hop]
    exact hop
  case hfragb =>
    intro a
    rw [(fb_all msg hop).2.2.2.2, fromNat_toNat msg.opcode hop] at a
    rw [(fb_all msg hop).1, (hctl a).1]
    decide
  case hmb =>
    intro h
    exact absurd h (by decide)
  rw [runHEADER_ext8 _ _ _ (by simp only [headerFC]; decide)
    (by simp [headerFC, be64_length, be32_length, List.length_cons])]
  rw [List.take_left' (be64_length msg.payload_length),
    List.drop_left' (be64_length msg.payload_length),
    readBE_be64 msg.payload_length hlen]
  rw [runHEADERcheck_pass _ _ _ ?hchkb]
  case hchkb =>
    intro h
    obtain ⟨ha, hb⟩ := h
    simp only [headerFC] at hb
    rw [(fb_all msg hop).2.2.2.2, fromNat_toNat msg.opcode hop] at hb
    have := (hctl hb).2
    omega
  rw [runLENGTH_masked _ _ _ (by simp only [headerFC]; decide)
    (by simp [headerFC, be64, be32, List.length_cons, List.length_append])]
  rw [List.take_left' (be32_length msg.mask), List.drop_left' (be32_length msg.mask),
    readBE_be32 msg.mask hmask]
  rw [runMASK_full_masked_split _ _ l extra ?hblb ?hposb
    (by simp only [headerFC]; decide) ?hlenb]
  case hblb =>
    simp only [headerFC, List.length_cons, List.length_append, be64_length, be32_length]
    omega
  case hposb =>
    simp only [headerFC]
    omega
  case hlenb =>
    simp only [headerFC]
    exact hlenl
  refine ⟨_, okFrameCongr ?_, ?_⟩
  · simp [toFrame, frameUnmasked, headerFC, Frame.mk.injEq, (fb_all msg hop).1,
      (fb_all msg hop).2.1, (fb_all msg hop).2.2.1, (fb_all msg hop).2.2.2.1,
      (fb_all msg hop).2.2.2.2, fromNat_toNat msg.opcode hop, lor127_bits.1,
      hm, hext, hmext, happ, had, bne_if_bit]
  · simp [headerFC]

/-- Decoding the encoding of any masked, structurally valid frame consumes exactly the
frame bytes and emits the frame with its payload XOR the mask pattern. -/
theorem decode_encode_core (fc : FrameCodec) (msg : Frame) (extra : List Nat)
    (hstate : fc.state = DecodeState.NONE)
    (happ : fc.application_data = none) (hext : fc.extension_data = none)
    (hm : msg.masked = true)
    (hop : msg.opcode.is_invalid = false)
    (hmext : msg.extension_data = none)
    (hr1 : msg.rsv1 = true → fc.reserved_bits &&& 0x4 ≠ 0)
    (hr2 : msg.rsv2 = true → fc.reserved_bits &&& 0x2 ≠ 0)
    (hr3 : msg.rsv3 = true → fc.reserved_bits &&& 0x1 ≠ 0)
    (hctl : msg.opcode.is_control = true → msg.fin = true ∧ msg.payload_length ≤ 125)
    (hmask : msg.mask < 2 ^ 32)
    (hlen : msg.payload_length < 2 ^ 64)
    (hsome : ∀ l, msg.application_data = some l → l.length = msg.payload_length)
    (hnone : msg.application_data = none → msg.payload_length = 0)
    (hzero : msg.payload_length = 0 → msg.application_data = none) :
    ∃ fcF, decode fc (encode msg [] ++ extra) =
        .ok (some (frameUnmasked msg), fcF, extra) ∧ fcF.state = DecodeState.FULL := by
  rcases had : msg.application_data with _ | l
  · exact decode_encode_zero fc msg extra hstate happ hext hm hop hmext hr1 hr2 hr3
      hctl hmask had (hnone had)
  · have hlenl := hsome l had
    have hpos : 0 < msg.payload_length := by
      rcases Nat.eq_zero_or_pos msg.payload_length with h0 | h
      · rw [hzero h0] at had
        cases had
      · exact h
    by_cases hA : msg.payload_length < 126
    · exact decode_encode_inline fc msg extra l hstate happ hext hm hop hmext hr1 hr2
        hr3 hctl hmask had hlenl hpos hA
    · by_cases hB : msg.payload_length < 65536
      · exact decode_encode_ext2 fc msg extra l hstate happ hext hm hop hmext hr1 hr2
          hr3 hctl hmask had hlenl hA hB
      · exact decode_encode_ext8 fc msg extra l hstate happ hext hm hop hmext hr1 hr2
          hr3 hctl hmask hlen had hlenl hA hB


/-- fcEquiv is reflexive. -/
theorem fcEquiv_refl (a : FrameCodec) : fcEquiv a a := ⟨a.min_len, rfl⟩

/-- resEquiv is reflexive. -/
theorem resEquiv_refl (r : DecodeResult) : resEquiv r r := by
  rcases r with e | ⟨f, c, b⟩
  · simp [resEquiv]
  · exact ⟨rfl, fcEquiv_refl c, rfl⟩

/-- resEquiv is symmetric. -/
theorem resEquiv_symm {r s : DecodeResult} (h : resEquiv r s) : resEquiv s r := by
  rcases r with e | ⟨f, c, b⟩ <;> rcases s with e2 | ⟨f2, c2, b2⟩ <;>
    simp [resEquiv] at h ⊢
  · exact h.symm
  · obtain ⟨h1, ⟨m, rfl⟩, h3⟩ := h
    exact ⟨h1.symm, ⟨c.min_len, rfl⟩, h3.symm⟩

/-- resEquiv is transitive. -/
theorem resEquiv_trans {r s t : DecodeResult} (h1 : resEquiv r s) (h2 : resEquiv s t) :
    resEquiv r t := by
  rcases r with e | ⟨f, c, b⟩ <;> rcases s with e2 | ⟨f2, c2, b2⟩ <;>
    rcases t with e3 | ⟨f3, c3, b3⟩ <;> simp [resEquiv] at h1 h2 ⊢
  · exact h1.trans h2
  · obtain ⟨ha, ⟨m, rfl⟩, hc⟩ := h1
    obtain ⟨hd, ⟨m2, rfl⟩, hf⟩ := h2
    exact ⟨ha.trans hd, ⟨m2, rfl⟩, hc.trans hf⟩

/-- Dispatch of decode on a nonempty buffer from state HEADER. -/
theorem decode_dispatch_HEADER (fc : FrameCodec) (buf : List Nat)
    (h : fc.state = DecodeState.HEADER) (hne : buf ≠ []) :
    decode fc buf = runHEADER { fc with min_len := 0 } buf buf.length := by
  unfold decode
  rw [if_neg (by simp [hne]), show ({ fc with min_len := 0 } : FrameCodec).state =
    DecodeState.HEADER from h]

/-- Dispatch of decode on a nonempty buffer from state LENGTH. -/
theorem decode_dispatch_LENGTH (fc : FrameCodec) (buf : List Nat)
    (h : fc.state = DecodeState.LENGTH) (hne : buf ≠ []) :
    decode fc buf = runLENGTH { fc with min_len := 0 } buf buf.length := by
  unfold decode
  rw [if_neg (by simp [hne]), show ({ fc with min_len := 0 } : FrameCodec).state =
    DecodeState.LENGTH from h]

/-- Dispatch of decode on a nonempty buffer from state MASK. -/
theorem decode_dispatch_MASK (fc : FrameCodec) (buf : List Nat)
    (h : fc.state = DecodeState.MASK) (hne : buf ≠ []) :
    decode fc buf = runMASK { fc with min_len := 0 } buf buf.length := by
  unfold decode
  rw [if_neg (by simp [hne]), show ({ fc with min_len := 0 } : FrameCodec).state =
    DecodeState.MASK from h]

/-- Decode on the empty buffer returns NeedsMore without touching the codec. -/
theorem decode_nil (fc : FrameCodec) : decode fc [] = .ok (none, fc, []) := rfl

/-- The MASK arm stalling on an unmasked Text frame: the Err branch inside the early
validation. -/
theorem runMASK_stall_text_unmasked (fc : FrameCodec) (buf : List Nat) (bl : Nat)
    (hbl : bl < fc.min_len + fc.payload_length)
    (ht : fc.opcode = OpCode.Text) (hm : fc.masked = false) :
    runMASK fc buf bl = .error "cannot unmask data" := by
  unfold runMASK
  rw [if_pos hbl]
  rw [if_pos (by simp [ht])]
  rw [if_neg (by simp [hm])]

/-- The MASK arm with a full nonempty payload on an unmasked frame: the Err branch. -/
theorem runMASK_full_unmasked (fc : FrameCodec) (buf : List Nat) (bl : Nat)
    (hbl : ¬ (bl < fc.min_len + fc.payload_length)) (hL : 0 < fc.payload_length)
    (hm : fc.masked = false) :
    runMASK fc buf bl = .error "cannot unmask data" := by
  unfold runMASK
  rw [if_neg hbl]
  rw [if_pos hL]
  rw [if_neg (by simp [hm])]

/-- The MASK arm ignores min_len and buf_len except through their difference: running
it with the stored min_len, or fresh with any other value m and the matching budget, is
equivalent up to the min_len of the returned codec. -/
theorem shiftMASK (a : FrameCodec) (m : Nat) (z : List Nat) :
    resEquiv (runMASK a z (a.min_len + z.length))
      (runMASK { a with min_len := m } z (m + z.length)) := by
  by_cases hz : z.length < a.payload_length
  · by_cases ht : a.opcode = OpCode.Text
    · by_cases hmk : a.masked = true
      · rcases hv : utf8validate (apply_mask z a.mask_key) with _ | _ | _
        · rw [runMASK_stall_text_ok a z _ (by omega) ht hmk (by simp [hv]),
            runMASK_stall_text_ok { a with min_len := m } z _
              (show m + z.length < m + a.payload_length by omega) ht hmk (by simp [hv])]
          exact ⟨rfl, ⟨m, rfl⟩, rfl⟩
        · rw [runMASK_stall_text_ok a z _ (by omega) ht hmk (by simp [hv]),
            runMASK_stall_text_ok { a with min_len := m } z _
              (show m + z.length < m + a.payload_length by omega) ht hmk (by simp [hv])]
          exact ⟨rfl, ⟨m, rfl⟩, rfl⟩
        · rw [runMASK_stall_text_invalid a z _ (by omega) ht hmk hv,
            runMASK_stall_text_invalid { a with min_len := m } z _
              (show m + z.length < m + a.payload_length by omega) ht hmk hv]
          rfl
      · have hmf : a.masked = false := by simpa using hmk
        rw [runMASK_stall_text_unmasked a z _ (by omega) ht hmf,
          runMASK_stall_text_unmasked { a with min_len := m } z _
            (show m + z.length < m + a.payload_length by omega) ht hmf]
        rfl
    · rw [runMASK_stall_nontext a z _ (by omega) (by simp [ht]),
        runMASK_stall_nontext { a with min_len := m } z _
          (show m + z.length < m + a.payload_length by omega) (by simp [ht])]
      exact ⟨rfl, ⟨m, rfl⟩, rfl⟩
  · by_cases hL : 0 < a.payload_length
    · by_cases hmk : a.masked = true
      · rw [runMASK_full_masked a z _ (by omega) hL hmk,
          runMASK_full_masked { a with min_len := m } z _
            (show ¬ (m + z.length < m + a.payload_length) by omega) hL hmk]
        exact ⟨rfl, ⟨m + a.payload_length, rfl⟩, rfl⟩
      · have hmf : a.masked = false := by simpa using hmk
        rw [runMASK_full_unmasked a z _ (by omega) hL hmf,
          runMASK_full_unmasked { a with min_len := m } z _
            (show ¬ (m + z.length < m + a.payload_length) by omega) hL hmf]
        rfl
    · rw [runMASK_full_zero a z _ (by omega) (by omega),
        runMASK_full_zero { a with min_len := m } z _
          (show ¬ (m + z.length < m + a.payload_length) by omega)
          (show a.payload_length = 0 by omega)]
      exact ⟨rfl, ⟨m, rfl⟩, rfl⟩


/-- The LENGTH arm is insensitive to the min_len base, up to the returned min_len. -/
theorem shiftLENGTH (a : FrameCodec) (m : Nat) (z : List Nat) :
    resEquiv (runLENGTH a z (a.min_len + z.length))
      (runLENGTH { a with min_len := m } z (m + z.length)) := by
  by_cases hmk : a.masked = true
  · by_cases hz : z.length < 4
    · rw [runLENGTH_masked_stall a z _ hmk (by omega),
        runLENGTH_masked_stall { a with min_len := m } z _ hmk
          (show m + z.length < m + 4 by omega)]
      exact ⟨rfl, ⟨m, rfl⟩, rfl⟩
    · rw [runLENGTH_masked a z _ hmk (by omega),
        runLENGTH_masked { a with min_len := m } z _ hmk
          (show ¬ (m + z.length < m + 4) by omega)]
      rw [show a.min_len + z.length = (a.min_len + 4) + (z.drop 4).length from by
        simp [List.length_drop]; omega]
      rw [show m + z.length = (m + 4) + (z.drop 4).length from by
        simp [List.length_drop]; omega]
      exact shiftMASK { a with
        min_len := a.min_len + 4, mask_key := readBE (z.take 4),
        state := DecodeState.MASK } (m + 4) (z.drop 4)
  · have hmf : a.masked = false := by simpa using hmk
    rw [runLENGTH_unmasked a z _ hmf,
      runLENGTH_unmasked { a with min_len := m } z _ hmf]
    exact shiftMASK { a with mask_key := 0, state := DecodeState.MASK } m z

/-- The control-length check is insensitive to the min_len base. -/
theorem shiftHEADERcheck (a : FrameCodec) (m : Nat) (z : List Nat) :
    resEquiv (runHEADERcheck a z (a.min_len + z.length))
      (runHEADERcheck { a with min_len := m } z (m + z.length)) := by
  by_cases hc : 125 < a.payload_length ∧ a.opcode.is_control = true
  · unfold runHEADERcheck
    rw [if_pos hc, if_pos hc]
    rfl
  · unfold runHEADERcheck
    rw [if_neg hc, if_neg hc]
    exact shiftLENGTH a m z

/-- The HEADER arm is insensitive to the min_len base. -/
theorem shiftHEADER (a : FrameCodec) (m : Nat) (z : List Nat) :
    resEquiv (runHEADER a z (a.min_len + z.length))
      (runHEADER { a with min_len := m } z (m + z.length)) := by
  by_cases h126 : a.length_code = 126
  · by_cases hz : z.length < 2
    · rw [runHEADER_ext2_stall a z _ h126 (by omega),
        runHEADER_ext2_stall { a with min_len := m } z _ h126
          (show m + z.length < m + 2 by omega)]
      exact ⟨rfl, ⟨m, rfl⟩, rfl⟩
    · rw [runHEADER_ext2 a z _ h126 (by omega),
        runHEADER_ext2 { a with min_len := m } z _ h126
          (show ¬ (m + z.length < m + 2) by omega)]
      rw [show a.min_len + z.length = (a.min_len + 2) + (z.drop 2).length from by
        simp [List.length_drop]; omega]
      rw [show m + z.length = (m + 2) + (z.drop 2).length from by
        simp [List.length_drop]; omega]
      exact shiftHEADERcheck { a with
        min_len := a.min_len + 2, payload_length := readBE (z.take 2),
        state := DecodeState.LENGTH } (m + 2) (z.drop 2)
  · by_cases h127 : a.length_code = 127
    · by_cases hz : z.length < 8
      · rw [runHEADER_ext8_stall a z _ h127 (by omega),
          runHEADER_ext8_stall { a with min_len := m } z _ h127
            (show m + z.length < m + 8 by omega)]
        exact ⟨rfl, ⟨m, rfl⟩, rfl⟩
      · rw [runHEADER_ext8 a z _ h127 (by omega),
          runHEADER_ext8 { a with min_len := m } z _ h127
            (show ¬ (m + z.length < m + 8) by omega)]
        rw [show a.min_len + z.length = (a.min_len + 8) + (z.drop 8).length from by
          simp [List.length_drop]; omega]
        rw [show m + z.length = (m + 8) + (z.drop 8).length from by
          simp [List.length_drop]; omega]
        exact shiftHEADERcheck { a with
          min_len := a.min_len + 8, payload_length := readBE (z.take 8),
          state := DecodeState.LENGTH } (m + 8) (z.drop 8)
    · rw [runHEADER_literal a z _ h126 h127,
        runHEADER_literal { a with min_len := m } z _ h126 h127]
      exact shiftHEADERcheck { a with
        payload_length := a.length_code, state := DecodeState.LENGTH } m z


/-- getD on an append, reading inside the first list. -/
theorem getD_append_left (l1 l2 : List Nat) (n : Nat) (h : n < l1.length) (d : Nat) :
    (l1 ++ l2).getD n d = l1.getD n d := by
  simp only [List.getD_eq_getElem?_getD, List.getElem?_append, if_pos h]

/-- Resumption for the MASK arm: if a call stalled here with NeedsMore, decoding the
same bytes extended by more input equals a fresh call on the stalled codec with the
undrained bytes plus the new input. -/
theorem resMASK (fc : FrameCodec) (buf c2 : List Nat) (fc1 : FrameCodec) (r1 : List Nat)
    (hstate : fc.state = DecodeState.MASK)
    (h : runMASK fc buf (fc.min_len + buf.length) = .ok (none, fc1, r1)) :
    resEquiv (runMASK fc (buf ++ c2) (fc.min_len + (buf ++ c2).length))
      (decode fc1 (r1 ++ c2)) := by
  by_cases hz : buf.length < fc.payload_length
  · by_cases ht : fc.opcode = OpCode.Text
    · by_cases hmk : fc.masked = true
      · rcases hv : utf8validate (apply_mask buf fc.mask_key) with _ | _ | _
        · rw [runMASK_stall_text_ok fc buf _ (by omega) ht hmk (by simp [hv])] at h
          obtain ⟨h1, h2⟩ : fc = fc1 ∧ buf = r1 := by simpa using h
          subst h1
          subst h2
          by_cases he : buf ++ c2 = []
          · obtain ⟨hb0, _⟩ := List.append_eq_nil.mp he
            rw [he, decode_nil]
            rw [runMASK_stall_text_ok fc [] _ (by simp; omega) ht hmk
              (by simp [apply_mask, apply_mask_from, utf8validate, utf8run])]
            exact resEquiv_refl _
          · rw [decode_dispatch_MASK fc (buf ++ c2) hstate he]
            have hs := shiftMASK fc 0 (buf ++ c2)
            rwa [Nat.zero_add] at hs
        · rw [runMASK_stall_text_ok fc buf _ (by omega) ht hmk (by simp [hv])] at h
          obtain ⟨h1, h2⟩ : fc = fc1 ∧ buf = r1 := by simpa using h
          subst h1
          subst h2
          by_cases he : buf ++ c2 = []
          · obtain ⟨hb0, _⟩ := List.append_eq_nil.mp he
            rw [he, decode_nil]
            rw [runMASK_stall_text_ok fc [] _ (by simp; omega) ht hmk
              (by simp [apply_mask, apply_mask_from, utf8validate, utf8run])]
            exact resEquiv_refl _
          · rw [decode_dispatch_MASK fc (buf ++ c2) hstate he]
            have hs := shiftMASK fc 0 (buf ++ c2)
            rwa [Nat.zero_add] at hs
        · rw [runMASK_stall_text_invalid fc buf _ (by omega) ht hmk hv] at h
          simp at h
      · rw [runMASK_stall_text_unmasked fc buf _ (by omega) ht (by simpa using hmk)] at h
        simp at h
    · rw [runMASK_stall_nontext fc buf _ (by omega) (by simp [ht])] at h
      obtain ⟨h1, h2⟩ : fc = fc1 ∧ buf = r1 := by simpa using h
      subst h1
      subst h2
      by_cases he : buf ++ c2 = []
      · obtain ⟨hb0, _⟩ := List.append_eq_nil.mp he
        rw [he, decode_nil]
        rw [runMASK_stall_nontext fc [] _ (by simp; omega) (by simp [ht])]
        exact resEquiv_refl _
      · rw [decode_dispatch_MASK fc (buf ++ c2) hstate he]
        have hs := shiftMASK fc 0 (buf ++ c2)
        rwa [Nat.zero_add] at hs
  · by_cases hL : 0 < fc.payload_length
    · by_cases hmk : fc.masked = true
      · rw [runMASK_full_masked fc buf _ (by omega) hL hmk] at h
        simp at h
      · rw [runMASK_full_unmasked fc buf _ (by omega) hL (by simpa using hmk)] at h
        simp at h
    · rw [runMASK_full_zero fc buf _ (by omega) (by omega)] at h
      simp at h


/-- Dispatch of decode on a nonempty buffer from state FULL. -/
theorem decode_dispatch_FULL (fc : FrameCodec) (buf : List Nat)
    (h : fc.state = DecodeState.FULL) (hne : buf ≠ []) :
    decode fc buf = runFULL { fc with min_len := 0 } buf buf.length := by
  unfold decode
  rw [if_neg (by simp [hne]), show ({ fc with min_len := 0 } : FrameCodec).state =
    DecodeState.FULL from h]

/-- Resumption for the LENGTH arm. -/
theorem resLENGTH (fc : FrameCodec) (buf c2 : List Nat) (fc1 : FrameCodec)
    (r1 : List Nat) (hstate : fc.state = DecodeState.LENGTH)
    (h : runLENGTH fc buf (fc.min_len + buf.length) = .ok (none, fc1, r1)) :
    resEquiv (runLENGTH fc (buf ++ c2) (fc.min_len + (buf ++ c2).length))
      (decode fc1 (r1 ++ c2)) := by
  by_cases hmk : fc.masked = true
  · by_cases hz : buf.length < 4
    · rw [runLENGTH_masked_stall fc buf _ hmk (by omega)] at h
      obtain ⟨h1, h2⟩ : fc = fc1 ∧ buf = r1 := by simpa using h
      subst h1
      subst h2
      by_cases he : buf ++ c2 = []
      · rw [he, decode_nil]
        rw [runLENGTH_masked_stall fc [] _ hmk (by simp)]
        exact resEquiv_refl _
      · rw [decode_dispatch_LENGTH fc (buf ++ c2) hstate he]
        have hs := shiftLENGTH fc 0 (buf ++ c2)
        rwa [Nat.zero_add] at hs
    · rw [runLENGTH_masked fc buf _ hmk (by omega)] at h
      rw [show fc.min_len + buf.length = (fc.min_len + 4) + (buf.drop 4).length from by
        simp [List.length_drop]; omega] at h
      rw [runLENGTH_masked fc (buf ++ c2) _ hmk (by simp; omega)]
      rw [List.take_append_of_le_length (by omega),
        List.drop_append_of_le_length (by omega)]
      rw [show fc.min_len + (buf ++ c2).length =
          (fc.min_len + 4) + ((buf.drop 4) ++ c2).length from by
        simp [List.length_drop, List.length_append]; omega]
      exact resMASK _ (buf.drop 4) c2 fc1 r1 (by simp) h
  · have hmf : fc.masked = false := by simpa using hmk
    rw [runLENGTH_unmasked fc buf _ hmf] at h
    rw [runLENGTH_unmasked fc (buf ++ c2) _ hmf]
    exact resMASK _ buf c2 fc1 r1 (by simp) h

/-- Resumption for the HEADER arm. -/
theorem resHEADER (fc : FrameCodec) (buf c2 : List Nat) (fc1 : FrameCodec)
    (r1 : List Nat) (hstate : fc.state = DecodeState.HEADER)
    (h : runHEADER fc buf (fc.min_len + buf.length) = .ok (none, fc1, r1)) :
    resEquiv (runHEADER fc (buf ++ c2) (fc.min_len + (buf ++ c2).length))
      (decode fc1 (r1 ++ c2)) := by
  by_cases h126 : fc.length_code = 126
  · by_cases hz : buf.length < 2
    · rw [runHEADER_ext2_stall fc buf _ h126 (by omega)] at h
      obtain ⟨h1, h2⟩ : fc = fc1 ∧ buf = r1 := by simpa using h
      subst h1
      subst h2
      by_cases he : buf ++ c2 = []
      · rw [he, decode_nil]
        rw [runHEADER_ext2_stall fc [] _ h126 (by simp)]
        exact resEquiv_refl _
      · rw [decode_dispatch_HEADER fc (buf ++ c2) hstate he]
        have hs := shiftHEADER fc 0 (buf ++ c2)
        rwa [Nat.zero_add] at hs
    · rw [runHEADER_ext2 fc buf _ h126 (by omega)] at h
      by_cases hc : 125 < readBE (buf.take 2) ∧ fc.opcode.is_control = true
      · unfold runHEADERcheck at h
        rw [if_pos hc] at h
        simp at h
      · unfold runHEADERcheck at h
        rw [if_neg hc] at h
        rw [show fc.min_len + buf.length = (fc.min_len + 2) + (buf.drop 2).length from by
          simp [List.length_drop]; omega] at h
        rw [runHEADER_ext2 fc (buf ++ c2) _ h126 (by simp; omega)]
        rw [List.take_append_of_le_length (by omega),
          List.drop_append_of_le_length (by omega)]
        unfold runHEADERcheck
        rw [if_neg hc]
        rw [show fc.min_len + (buf ++ c2).length =
            (fc.min_len + 2) + ((buf.drop 2) ++ c2).length from by
          simp [List.length_drop, List.length_append]; omega]
        exact resLENGTH _ (buf.drop 2) c2 fc1 r1 (by simp) h
  · by_cases h127 : fc.length_code = 127
    · by_cases hz : buf.length < 8
      · rw [runHEADER_ext8_stall fc buf _ h127 (by omega)] at h
        obtain ⟨h1, h2⟩ : fc = fc1 ∧ buf = r1 := by simpa using h
        subst h1
        subst h2
        by_cases he : buf ++ c2 = []
        · rw [he, decode_nil]
          rw [runHEADER_ext8_stall fc [] _ h127 (by simp)]
          exact resEquiv_refl _
        · rw [decode_dispatch_HEADER fc (buf ++ c2) hstate he]
          have hs := shiftHEADER fc 0 (buf ++ c2)
          rwa [Nat.zero_add] at hs
      · rw [runHEADER_ext8 fc buf _ h127 (by omega)] at h
        by_cases hc : 125 < readBE (buf.take 8) ∧ fc.opcode.is_control = true
        · unfold runHEADERcheck at h
          rw [if_pos hc] at h
          simp at h
        · unfold runHEADERcheck at h
          rw [if_neg hc] at h
          rw [show fc.min_len + buf.length =
              (fc.min_len + 8) + (buf.drop 8).length from by
            simp [List.length_drop]; omega] at h
          rw [runHEADER_ext8 fc (buf ++ c2) _ h127 (by simp; omega)]
          rw [List.take_append_of_le_length (by omega),
            List.drop_append_of_le_length (by omega)]
          unfold runHEADERcheck
          rw [if_neg hc]
          rw [show fc.min_len + (buf ++ c2).length =
              (fc.min_len + 8) + ((buf.drop 8) ++ c2).length from by
            simp [List.length_drop, List.length_append]; omega]
          exact resLENGTH _ (buf.drop 8) c2 fc1 r1 (by simp) h
    · rw [runHEADER_literal fc buf _ h126 h127] at h
      by_cases hc : 125 < fc.length_code ∧ fc.opcode.is_control = true
      · unfold runHEADERcheck at h
        rw [if_pos hc] at h
        simp at h
      · unfold runHEADERcheck at h
        rw [if_neg hc] at h
        rw [runHEADER_literal fc (buf ++ c2) _ h126 h127]
        unfold runHEADERcheck
        rw [if_neg hc]
        exact resLENGTH _ buf c2 fc1 r1 (by simp) h


/-- Resumption for the NONE arm of a fresh call (min_len already reset). -/
theorem resNONE (fc : FrameCodec) (buf c2 : List Nat) (fc1 : FrameCodec)
    (r1 : List Nat) (hstate : fc.state = DecodeState.NONE) (hmin : fc.min_len = 0)
    (h : runNONE fc buf (fc.min_len + buf.length) = .ok (none, fc1, r1)) :
    resEquiv (runNONE fc (buf ++ c2) (fc.min_len + (buf ++ c2).length))
      (decode fc1 (r1 ++ c2)) := by
  by_cases hz : buf.length < 2
  · rw [runNONE_stall fc buf _ (by omega)] at h
    obtain ⟨h1, h2⟩ : ({ fc with min_len := fc.min_len + 2 } : FrameCodec) = fc1 ∧
        buf = r1 := by simpa using h
    subst h1
    subst h2
    by_cases he : buf ++ c2 = []
    · rw [he, decode_nil]
      rw [runNONE_stall fc [] _ (by simp)]
      exact ⟨rfl, fcEquiv_refl _, rfl⟩
    · rw [decode_dispatch_NONE _ (buf ++ c2)
        (show ({ fc with min_len := fc.min_len + 2 } : FrameCodec).state =
          DecodeState.NONE from hstate) he]
      by_cases hz2 : (buf ++ c2).length < 2
      · rw [runNONE_stall fc (buf ++ c2) _ (by omega),
          runNONE_stall { fc with min_len := 0 } (buf ++ c2) _
            (show (buf ++ c2).length < 0 + 2 by omega)]
        exact ⟨rfl, ⟨0 + 2, rfl⟩, rfl⟩
      · have hfc0 : ({ fc with min_len := 0 } : FrameCodec) = fc := by
          rw [← hmin]
        rw [hfc0, hmin, Nat.zero_add]
        exact resEquiv_refl _
  · rcases buf with _ | ⟨b0, buf1⟩
    · simp at hz
    rcases buf1 with _ | ⟨b1, rest⟩
    · simp at hz
    simp only [List.cons_append]
    unfold runNONE at h ⊢
    rw [if_neg (show ¬ (fc.min_len + (b0 :: b1 :: rest).length < fc.min_len + 2) by
      simp only [List.length_cons]; omega)] at h
    rw [if_neg (show ¬ (fc.min_len + (b0 :: b1 :: (rest ++ c2)).length < fc.min_len + 2) by
      simp only [List.length_cons]; omega)]
    simp only [List.getD_cons_zero, List.getD_cons_succ, List.drop_succ_cons,
      List.drop_zero] at h ⊢
    by_cases hc1 : ((b0 &&& 0x40 != 0) && (fc.reserved_bits &&& 0x4 == 0)) = true
    · rw [if_pos hc1] at h
      simp at h
    · rw [if_neg hc1] at h
      rw [if_neg hc1]
      by_cases hc2 : ((b0 &&& 0x20 != 0) && (fc.reserved_bits &&& 0x2 == 0)) = true
      · rw [if_pos hc2] at h
        simp at h
      · rw [if_neg hc2] at h
        rw [if_neg hc2]
        by_cases hc3 : ((b0 &&& 0x10 != 0) && (fc.reserved_bits &&& 0x1 == 0)) = true
        · rw [if_pos hc3] at h
          simp at h
        · rw [if_neg hc3] at h
          rw [if_neg hc3]
          by_cases hc4 : (OpCode.fromNat (b0 &&& 0x0F)).is_invalid = true
          · rw [if_pos hc4] at h
            simp at h
          · rw [if_neg hc4] at h
            rw [if_neg hc4]
            by_cases hc5 : ((OpCode.fromNat (b0 &&& 0x0F)).is_control &&
                !(b0 &&& 0x80 != 0)) = true
            · rw [if_pos hc5] at h
              simp at h
            · rw [if_neg hc5] at h
              rw [if_neg hc5]
              by_cases hc6 : (!(b1 &&& 0x80 != 0) && fc.client) = true
              · rw [if_pos hc6] at h
                simp at h
              · rw [if_neg hc6] at h
                rw [if_neg hc6]
                rw [show fc.min_len + (b0 :: b1 :: rest).length =
                    (fc.min_len + 2) + rest.length from by simp; omega] at h
                rw [show fc.min_len + (b0 :: b1 :: (rest ++ c2)).length =
                    (fc.min_len + 2) + (rest ++ c2).length from by simp; omega]
                exact resHEADER _ rest c2 fc1 r1 (by simp) h

/-- Resumption for whole decode calls: when a call returned NeedsMore, feeding the same
bytes plus more input in one call is equivalent to a fresh call on the stalled codec
with the undrained bytes plus the new input. -/
theorem decode_resume (fc : FrameCodec) (c1 c2 : List Nat) (fc1 : FrameCodec)
    (r1 : List Nat) (h : decode fc c1 = .ok (none, fc1, r1)) :
    resEquiv (decode fc (c1 ++ c2)) (decode fc1 (r1 ++ c2)) := by
  by_cases hne : c1 = []
  · subst hne
    obtain ⟨h1, h2⟩ : fc = fc1 ∧ ([] : List Nat) = r1 := by
      rw [decode_nil] at h
      simpa using h
    subst h1
    subst h2
    exact resEquiv_refl _
  · have hlen : c1.length ≠ 0 := by simpa using hne
    rcases hstate : fc.state with _ | _ | _ | _ | _
    ·
      rw [decode_dispatch_NONE fc c1 hstate hne] at h
      rw [show c1.length = ({ fc with min_len := 0 } : FrameCodec).min_len + c1.length
        from by simp] at h
      rw [decode_dispatch_NONE fc (c1 ++ c2) hstate (by simp [hne])]
      rw [show (c1 ++ c2).length =
          ({ fc with min_len := 0 } : FrameCodec).min_len + (c1 ++ c2).length from by
        simp]
      exact resNONE _ c1 c2 fc1 r1 hstate rfl h
    ·
      rw [decode_dispatch_HEADER fc c1 hstate hne] at h
      rw [show c1.length = ({ fc with min_len := 0 } : FrameCodec).min_len + c1.length
        from by simp] at h
      rw [decode_dispatch_HEADER fc (c1 ++ c2) hstate (by simp [hne])]
      rw [show (c1 ++ c2).length =
          ({ fc with min_len := 0 } : FrameCodec).min_len + (c1 ++ c2).length from by
        simp]
      exact resHEADER _ c1 c2 fc1 r1 hstate h
    ·
      rw [decode_dispatch_LENGTH fc c1 hstate hne] at h
      rw [show c1.length = ({ fc with min_len := 0 } : FrameCodec).min_len + c1.length
        from by simp] at h
      rw [decode_dispatch_LENGTH fc (c1 ++ c2) hstate (by simp [hne])]
      rw [show (c1 ++ c2).length =
          ({ fc with min_len := 0 } : FrameCodec).min_len + (c1 ++ c2).length from by
        simp]
      exact resLENGTH _ c1 c2 fc1 r1 hstate h
    ·
      rw [decode_dispatch_MASK fc c1 hstate hne] at h
      rw [show c1.length = ({ fc with min_len := 0 } : FrameCodec).min_len + c1.length
        from by simp] at h
      rw [decode_dispatch_MASK fc (c1 ++ c2) hstate (by simp [hne])]
      rw [show (c1 ++ c2).length =
          ({ fc with min_len := 0 } : FrameCodec).min_len + (c1 ++ c2).length from by
        simp]
      exact resMASK _ c1 c2 fc1 r1 hstate h
    ·
      rw [decode_dispatch_FULL fc c1 hstate hne] at h
      simp [runFULL] at h

/-- fcEquiv is symmetric. -/
theorem fcEquiv_symm {a b : FrameCodec} (h : fcEquiv a b) : fcEquiv b a := by
  obtain ⟨m, rfl⟩ := h
  exact ⟨a.min_len, rfl⟩

/-- decode ignores the stored min_len up to the min_len of the returned codec. -/
theorem decode_congr (a b : FrameCodec) (buf : List Nat) (h : fcEquiv a b) :
    resEquiv (decode a buf) (decode b buf) := by
  obtain ⟨m, rfl⟩ := h
  by_cases hne : buf = []
  · subst hne
    rw [decode_nil, decode_nil]
    exact ⟨rfl, ⟨m, rfl⟩, rfl⟩
  · unfold decode
    rw [if_neg (by simp [hne]), if_neg (by simp [hne])]
    exact resEquiv_refl _

/-- Feeding a run of empty chunks neither changes the codec nor emits anything. -/
theorem feedChunks_nils (cs : List (List Nat)) :
    ∀ fc : FrameCodec, (∀ c ∈ cs, c = []) → feedChunks fc [] cs = .ok ([], fc, []) := by
  induction cs with
  | nil =>
    intro fc _
    rfl
  | cons c cs ih =>
    intro fc h
    have hc : c = [] := h c (by simp)
    subst hc
    unfold feedChunks
    simp only [List.append_nil, decode_nil]
    exact ih fc (fun x hx => h x (by simp [hx]))

/-- One feed step whose decode call completes a frame. -/
theorem feedChunks_cons_some (fc fc1 fc2 : FrameCodec) (pend r r2 c : List Nat)
    (f : Frame) (cs : List (List Nat)) (fs : List Frame)
    (h : decode fc (pend ++ c) = .ok (some f, fc1, r))
    (h2 : feedChunks fc1 r cs = .ok (fs, fc2, r2)) :
    feedChunks fc pend (c :: cs) = .ok (f :: fs, fc2, r2) := by
  unfold feedChunks
  simp only [h, h2]

/-- One feed step whose decode call stalls. -/
theorem feedChunks_cons_none (fc fc1 : FrameCodec) (pend r c : List Nat)
    (cs : List (List Nat))
    (h : decode fc (pend ++ c) = .ok (none, fc1, r)) :
    feedChunks fc pend (c :: cs) = feedChunks fc1 r cs := by
  conv_lhs => unfold feedChunks
  simp only [h]

/-- An invalid UTF-8 run stays invalid under appending more bytes. -/
theorem utf8run_invalid_append (ys : List Nat) : ∀ (xs : List Nat) (k : Nat),
    utf8run k xs = .invalid → utf8run k (xs ++ ys) = .invalid := by
  intro xs
  induction xs with
  | nil =>
    intro k h
    cases k <;> simp [utf8run] at h
  | cons b rest ih =>
    intro k h
    cases k with
    | zero =>
      simp only [List.cons_append, utf8run] at h ⊢
      rcases hl : utf8lead b with _ | j
      · simp only [hl]
      · simp only [hl] at h ⊢
        exact ih j h
    | succ j =>
      simp only [List.cons_append, utf8run] at h ⊢
      by_cases hc : utf8cont b = true
      · rw [if_pos hc] at h ⊢
        exact ih j h
      · rw [if_neg hc]

/-- A prefix of a non-invalid UTF-8 run is itself non-invalid. -/
theorem utf8run_take (k n : Nat) (xs : List Nat) (h : utf8run k xs ≠ .invalid) :
    utf8run k (xs.take n) ≠ .invalid := by
  intro hx
  apply h
  rw [← List.take_append_drop n xs]
  exact utf8run_invalid_append (xs.drop n) (xs.take n) k hx

/-- apply_mask_from commutes with take. -/
theorem apply_mask_from_take (mb : List Nat) : ∀ (l : List Nat) (i n : Nat),
    apply_mask_from mb i (l.take n) = (apply_mask_from mb i l).take n := by
  intro l
  induction l with
  | nil =>
    intro i n
    simp [apply_mask_from]
  | cons b rest ih =>
    intro i n
    cases n with
    | zero => simp [apply_mask_from]
    | succ n =>
      simp only [List.take_succ_cons, apply_mask_from]
      rw [ih]

/-- apply_mask commutes with take. -/
theorem apply_mask_take (l : List Nat) (mask n : Nat) :
    apply_mask (l.take n) mask = (apply_mask l mask).take n :=
  apply_mask_from_take (be32 mask) l 0 n

/-- The NONE arm on the two header bytes that encode wrote for a structurally valid
masked frame: all checks pass and the loop continues with the HEADER arm. -/
theorem runNONE_ok_encode (fc : FrameCodec) (msg : Frame) (sb : Nat) (rest : List Nat)
    (bl : Nat)
    (hbl : ¬ (bl < fc.min_len + 2))
    (hop : msg.opcode.is_invalid = false)
    (hr1 : msg.rsv1 = true → fc.reserved_bits &&& 0x4 ≠ 0)
    (hr2 : msg.rsv2 = true → fc.reserved_bits &&& 0x2 ≠ 0)
    (hr3 : msg.rsv3 = true → fc.reserved_bits &&& 0x1 ≠ 0)
    (hctl : msg.opcode.is_control = true → msg.fin = true)
    (hsb : sb &&& 0x80 ≠ 0) :
    runNONE fc (first_byte msg :: sb :: rest) bl =
      runHEADER (headerFC fc (first_byte msg) sb) rest bl := by
  rw [runNONE_ok fc (first_byte msg) sb rest bl hbl ?e1 ?e2 ?e3 ?e4 ?e5 ?e6]
  case e1 =>
    intro a
    rcases h1 : msg.rsv1
    · rw [(fb_all msg hop).2.1, h1] at a
      exact absurd rfl a
    · exact hr1 h1
  case e2 =>
    intro a
    rcases h1 : msg.rsv2
    · rw [(fb_all msg hop).2.2.1, h1] at a
      exact absurd rfl a
    · exact hr2 h1
  case e3 =>
    intro a
    rcases h1 : msg.rsv3
    · rw [(fb_all msg hop).2.2.2.1, h1] at a
      exact absurd rfl a
    · exact hr3 h1
  case e4 =>
    rw [(fb_all msg hop).2.2.2.2, fromNat_toNat msg.opcode hop]
    exact hop
  case e5 =>
    intro a
    rw [(fb_all msg hop).2.2.2.2, fromNat_toNat msg.opcode hop] at a
    rw [(fb_all msg hop).1, hctl a]
    decide
  case e6 =>
    intro h
    exact absurd h hsb

/-- The MASK arm stalling on any taken prefix of a payload whose full unmasking is not
invalid UTF-8 (vacuous for non-Text opcodes). -/
theorem runMASK_stall_pre (fc : FrameCodec) (msg : Frame) (l : List Nat) (n bl : Nat)
    (hbl : bl < fc.min_len + fc.payload_length)
    (hopc : fc.opcode = msg.opcode)
    (hmk : fc.mask_key = msg.mask)
    (hmsk : fc.masked = true)
    (htext : msg.opcode = OpCode.Text →
      utf8validate (apply_mask l msg.mask) ≠ .invalid) :
    runMASK fc (l.take n) bl = .ok (none, fc, l.take n) := by
  by_cases htx : msg.opcode = OpCode.Text
  · refine runMASK_stall_text_ok fc (l.take n) bl hbl (hopc.trans htx) hmsk ?_
    rw [hmk, apply_mask_take]
    exact utf8run_take 0 n (apply_mask l msg.mask) (htext htx)
  · refine runMASK_stall_nontext fc (l.take n) bl hbl ?_
    rw [hopc]
    simp [htx]

/-- Decoding any strict prefix of the encoding of a structurally valid masked frame
(whose unmasked Text payload, if any, is not invalid UTF-8) stalls with NeedsMore. -/
theorem decode_encode_prefix (fc : FrameCodec) (msg : Frame) (j : Nat)
    (hstate : fc.state = DecodeState.NONE)
    (hm : msg.masked = true)
    (hop : msg.opcode.is_invalid = false)
    (hr1 : msg.rsv1 = true → fc.reserved_bits &&& 0x4 ≠ 0)
    (hr2 : msg.rsv2 = true → fc.reserved_bits &&& 0x2 ≠ 0)
    (hr3 : msg.rsv3 = true → fc.reserved_bits &&& 0x1 ≠ 0)
    (hctl : msg.opcode.is_control = true → msg.fin = true ∧ msg.payload_length ≤ 125)
    (hmask : msg.mask < 2 ^ 32)
    (hlen : msg.payload_length < 2 ^ 64)
    (hsome : ∀ l, msg.application_data = some l → l.length = msg.payload_length)
    (hnone : msg.application_data = none → msg.payload_length = 0)
    (hzero : msg.payload_length = 0 → msg.application_data = none)
    (htext : msg.opcode = OpCode.Text → ∀ l, msg.application_data = some l →
      utf8validate (apply_mask l msg.mask) ≠ .invalid)
    (hj : j < (encode msg []).length) :
    ∃ fcj pendj, decode fc ((encode msg []).take j) = .ok (none, fcj, pendj) := by
  rcases had : msg.application_data with _ | l
  · -- no application data: payload length 0, inline length code
    have hl0 := hnone had
    have hbuf : encode msg [] = first_byte msg :: (128 ||| 0) :: be32 msg.mask := by
      simp [encode, length_bytes, hm, had, hl0]
    rw [hbuf] at hj ⊢
    by_cases hj0 : j = 0
    · subst hj0
      exact ⟨fc, [], by rw [List.take_zero]; exact decode_nil fc⟩
    by_cases hj1 : j = 1
    · subst hj1
      simp only [List.take_succ_cons, List.take_zero]
      rw [decode_dispatch_NONE _ _ hstate (by simp)]
      rw [runNONE_stall _ _ _ (by simp)]
      exact ⟨_, _, rfl⟩
    obtain ⟨m, rfl⟩ : ∃ m, j = m + 2 := ⟨j - 2, by omega⟩
    have hm4 : m < 4 := by
      simp only [List.length_cons, be32_length] at hj
      omega
    simp only [List.take_succ_cons]
    rw [decode_dispatch_NONE _ _ hstate (by simp)]
    rw [runNONE_ok_encode _ msg (128 ||| 0) _ _ ?blz hop ?r1z ?r2z ?r3z
      (fun h => (hctl h).1) (by decide)]
    case blz =>
      simp only [List.length_cons, List.length_take, be32_length]
      omega
    case r1z => exact hr1
    case r2z => exact hr2
    case r3z => exact hr3
    rw [runHEADER_literal _ _ _ (by simp [headerFC, and_128_127])
      (by simp [headerFC, and_128_127])]
    rw [runHEADERcheck_pass _ _ _
      (fun h => absurd h.1 (by simp [headerFC, and_128_127]))]
    rw [runLENGTH_masked_stall _ _ _ (by simp [headerFC, and_128_128])
      (by simp only [headerFC, List.length_cons, List.length_take, be32_length]; omega)]
    exact ⟨_, _, rfl⟩
  · -- some payload
    have hlenl := hsome l had
    have hpos : 0 < msg.payload_length := by
      rcases Nat.eq_zero_or_pos msg.payload_length with h0 | h
      · rw [hzero h0] at had
        cases had
      · exact h
    by_cases hA : msg.payload_length < 126
    · -- inline length code
      have hbuf : encode msg [] = first_byte msg ::
          ((128 ||| msg.payload_length) :: (be32 msg.mask ++ l)) := by
        simp [encode, length_bytes, hm, had, hA]
      rw [hbuf] at hj ⊢
      by_cases hj0 : j = 0
      · subst hj0
        exact ⟨fc, [], by rw [List.take_zero]; exact decode_nil fc⟩
      by_cases hj1 : j = 1
      · subst hj1
        simp only [List.take_succ_cons, List.take_zero]
        rw [decode_dispatch_NONE _ _ hstate (by simp)]
        rw [runNONE_stall _ _ _ (by simp)]
        exact ⟨_, _, rfl⟩
      obtain ⟨m, rfl⟩ : ∃ m, j = m + 2 := ⟨j - 2, by omega⟩
      have hjm : m < 4 + l.length := by
        simp only [List.length_cons, List.length_append, be32_length] at hj
        omega
      simp only [List.take_succ_cons]
      by_cases hm4 : m < 4
      · -- stalls while reading the mask key
        rw [decode_dispatch_NONE _ _ hstate (by simp)]
        rw [runNONE_ok_encode _ msg (128 ||| msg.payload_length) _ _ ?bli hop
          ?r1i ?r2i ?r3i (fun h => (hctl h).1)
          (by simp [(lor128 msg.payload_length (by omega)).1])]
        case bli =>
          simp only [List.length_cons, List.length_take, List.length_append,
            be32_length]
          omega
        case r1i => exact hr1
        case r2i => exact hr2
        case r3i => exact hr3
        rw [runHEADER_literal _ _ _
          (by simp [headerFC, (lor128 msg.payload_length (by omega)).2]; omega)
          (by simp [headerFC, (lor128 msg.payload_length (by omega)).2]; omega)]
        rw [runHEADERcheck_pass _ _ _ ?chki]
        case chki =>
          intro h
          obtain ⟨ha, hb⟩ := h
          simp only [headerFC] at ha
          rw [(lor128 msg.payload_length (by omega)).2] at ha
          omega
        rw [runLENGTH_masked_stall _ _ _
          (by simp [headerFC, (lor128 msg.payload_length (by omega)).1])
          (by simp only [headerFC, List.length_cons, List.length_take,
            List.length_append, be32_length]; omega)]
        exact ⟨_, _, rfl⟩
      · -- stalls while reading the payload
        have hsplit : (be32 msg.mask ++ l).take m = be32 msg.mask ++ l.take (m - 4) := by
          rw [List.take_append_eq_append_take,
            List.take_of_length_le (show (be32 msg.mask).length ≤ m by
              rw [be32_length]; omega),
            be32_length]
        rw [hsplit]
        rw [decode_dispatch_NONE _ _ hstate (by simp)]
        rw [runNONE_ok_encode _ msg (128 ||| msg.payload_length) _ _ ?bli hop
          ?r1i ?r2i ?r3i (fun h => (hctl h).1)
          (by simp [(lor128 msg.payload_length (by omega)).1])]
        case bli =>
          simp only [List.length_cons, List.length_take, List.length_append,
            be32_length]
          omega
        case r1i => exact hr1
        case r2i => exact hr2
        case r3i => exact hr3
        rw [runHEADER_literal _ _ _
          (by simp [headerFC, (lor128 msg.payload_length (by omega)).2]; omega)
          (by simp [headerFC, (lor128 msg.payload_length (by omega)).2]; omega)]
        rw [runHEADERcheck_pass _ _ _ ?chki2]
        case chki2 =>
          intro h
          obtain ⟨ha, hb⟩ := h
          simp only [headerFC] at ha
          rw [(lor128 msg.payload_length (by omega)).2] at ha
          omega
        rw [runLENGTH_masked _ _ _
          (by simp [headerFC, (lor128 msg.payload_length (by omega)).1])
          (by simp only [headerFC, List.length_cons, List.length_take,
            List.length_append, be32_length]; omega)]
        rw [List.take_left' (be32_length msg.mask),
          List.drop_left' (be32_length msg.mask), readBE_be32 msg.mask hmask]
        rw [runMASK_stall_pre _ msg l (m - 4) _ ?mbli ?mopci rfl
          (by simp [headerFC, (lor128 msg.payload_length (by omega)).1])
          (fun h => htext h l had)]
        case mbli =>
          simp only [headerFC, List.length_cons, List.length_take, List.length_append,
            be32_length]
          rw [(lor128 msg.payload_length (by omega)).2]
          omega
        case mopci =>
          show OpCode.fromNat (first_byte msg &&& 0x0F) = msg.opcode
          rw [(fb_all msg hop).2.2.2.2, fromNat_toNat msg.opcode hop]
        exact ⟨_, _, rfl⟩
    · by_cases hB : msg.payload_length < 65536
      · -- two-byte extended length
        have hbuf : encode msg [] = first_byte msg :: ((128 ||| 126) ::
            (be16 msg.payload_length ++ (be32 msg.mask ++ l))) := by
          simp [encode, length_bytes, hm, had, hA, hB]
        rw [hbuf] at hj ⊢
        by_cases hj0 : j = 0
        · subst hj0
          exact ⟨fc, [], by rw [List.take_zero]; exact decode_nil fc⟩
        by_cases hj1 : j = 1
        · subst hj1
          simp only [List.take_succ_cons, List.take_zero]
          rw [decode_dispatch_NONE _ _ hstate (by simp)]
          rw [runNONE_stall _ _ _ (by simp)]
          exact ⟨_, _, rfl⟩
        obtain ⟨m, rfl⟩ : ∃ m, j = m + 2 := ⟨j - 2, by omega⟩
        have hjm : m < 6 + l.length := by
          simp only [List.length_cons, List.length_append, be16_length, be32_length]
            at hj
          omega
        simp only [List.take_succ_cons]
        by_cases hm2 : m < 2
        · -- stalls while reading the extended length
          rw [decode_dispatch_NONE _ _ hstate (by simp)]
          rw [runNONE_ok_encode _ msg (128 ||| 126) _ _ ?blt hop ?r1t ?r2t ?r3t
            (fun h => (hctl h).1) (by decide)]
          case blt =>
            simp only [List.length_cons, List.length_take, List.length_append,
              be16_length, be32_length]
            omega
          case r1t => exact hr1
          case r2t => exact hr2
          case r3t => exact hr3
          rw [runHEADER_ext2_stall _ _ _ (by simp only [headerFC]; decide)
            (by simp only [headerFC, List.length_cons, List.length_take,
              List.length_append, be16_length, be32_length]; omega)]
          exact ⟨_, _, rfl⟩
        by_cases hm6 : m < 6
        · -- stalls while reading the mask key
          have hsplit : (be16 msg.payload_length ++ (be32 msg.mask ++ l)).take m =
              be16 msg.payload_length ++ (be32 msg.mask ++ l).take (m - 2) := by
            rw [List.take_append_eq_append_take,
              List.take_of_length_le (show (be16 msg.payload_length).length ≤ m by
                rw [be16_length]; omega),
              be16_length]
          rw [hsplit]
          rw [decode_dispatch_NONE _ _ hstate (by simp)]
          rw [runNONE_ok_encode _ msg (128 ||| 126) _ _ ?blt hop ?r1t ?r2t ?r3t
            (fun h => (hctl h).1) (by decide)]
          case blt =>
            simp only [List.length_cons, List.length_take, List.length_append,
              be16_length, be32_length]
            omega
          case r1t => exact hr1
          case r2t => exact hr2
          case r3t => exact hr3
          rw [runHEADER_ext2 _ _ _ (by simp only [headerFC]; decide)
            (by simp only [headerFC, List.length_cons, List.length_take,
              List.length_append, be16_length, be32_length]; omega)]
          rw [List.take_left' (be16_length msg.payload_length),
            List.drop_left' (be16_length msg.payload_length),
            readBE_be16 msg.payload_length hB]
          rw [runHEADERcheck_pass _ _ _ ?chke2]
          case chke2 =>
            intro h
            obtain ⟨ha, hb⟩ := h
            simp only [headerFC] at hb
            rw [(fb_all msg hop).2.2.2.2, fromNat_toNat msg.opcode hop] at hb
            have := (hctl hb).2
            omega
          rw [runLENGTH_masked_stall _ _ _ (by simp only [headerFC]; decide)
            (by simp only [headerFC, List.length_cons, List.length_take,
              List.length_append, be16_length, be32_length]; omega)]
          exact ⟨_, _, rfl⟩
        · -- stalls while reading the payload
          have hsplit : (be16 msg.payload_length ++ (be32 msg.mask ++ l)).take m =
              be16 msg.payload_length ++ (be32 msg.mask ++ l.take (m - 2 - 4)) := by
            rw [List.take_append_eq_append_take,
              List.take_of_length_le (show (be16 msg.payload_length).length ≤ m by
                rw [be16_length]; omega),
              be16_length, List.take_append_eq_append_take,
              List.take_of_length_le (show (be32 msg.mask).length ≤ m - 2 by
                rw [be32_length]; omega),
              be32_length]
          rw [hsplit]
          rw [decode_dispatch_NONE _ _ hstate (by simp)]
          rw [runNONE_ok_encode _ msg (128 ||| 126) _ _ ?blt hop ?r1t ?r2t ?r3t
            (fun h => (hctl h).1) (by decide)]
          case blt =>
            simp only [List.length_cons, List.length_take, List.length_append,
              be16_length, be32_length]
            omega
          case r1t => exact hr1
          case r2t => exact hr2
          case r3t => exact hr3
          rw [runHEADER_ext2 _ _ _ (by simp only [headerFC]; decide)
            (by simp only [headerFC, List.length_cons, List.length_take,
              List.length_append, be16_length, be32_length]; omega)]
          rw [List.take_left' (be16_length msg.payload_length),
            List.drop_left' (be16_length msg.payload_length),
            readBE_be16 msg.payload_length hB]
          rw [runHEADERcheck_pass _ _ _ ?chke2b]
          case chke2b =>
            intro h
            obtain ⟨ha, hb⟩ := h
            simp only [headerFC] at hb
            rw [(fb_all msg hop).2.2.2.2, fromNat_toNat msg.opcode hop] at hb
            have := (hctl hb).2
            omega
          rw [runLENGTH_masked _ _ _ (by simp only [headerFC]; decide)
            (by simp only [headerFC, List.length_cons, List.length_take,
              List.length_append, be16_length, be32_length]; omega)]
          rw [List.take_left' (be32_length msg.mask),
            List.drop_left' (be32_length msg.mask), readBE_be32 msg.mask hmask]
          rw [runMASK_stall_pre _ msg l (m - 2 - 4) _ ?mble2 ?mopce2 rfl
            (by simp only [headerFC]; decide) (fun h => htext h l had)]
          case mble2 =>
            simp only [headerFC, List.length_cons, List.length_take, List.length_append,
              be16_length, be32_length]
            omega
          case mopce2 =>
            show OpCode.fromNat (first_byte msg &&& 0x0F) = msg.opcode
            rw [(fb_all msg hop).2.2.2.2, fromNat_toNat msg.opcode hop]
          exact ⟨_, _, rfl⟩
      · -- eight-byte extended length
        have hbuf : encode msg [] = first_byte msg :: ((128 ||| 127) ::
            (be64 msg.payload_length ++ (be32 msg.mask ++ l))) := by
          simp [encode, length_bytes, hm, had, hA, hB]
        rw [hbuf] at hj ⊢
        by_cases hj0 : j = 0
        · subst hj0
          exact ⟨fc, [], by rw [List.take_zero]; exact decode_nil fc⟩
        by_cases hj1 : j = 1
        · subst hj1
          simp only [List.take_succ_cons, List.take_zero]
          rw [decode_dispatch_NONE _ _ hstate (by simp)]
          rw [runNONE_stall _ _ _ (by simp)]
          exact ⟨_, _, rfl⟩
        obtain ⟨m, rfl⟩ : ∃ m, j = m + 2 := ⟨j - 2, by omega⟩
        have hjm : m < 12 + l.length := by
          simp only [List.length_cons, List.length_append, be64_length, be32_length]
            at hj
          omega
        simp only [List.take_succ_cons]
        by_cases hm8 : m < 8
        · -- stalls while reading the extended length
          rw [decode_dispatch_NONE _ _ hstate (by simp)]
          rw [runNONE_ok_encode _ msg (128 ||| 127) _ _ ?ble hop ?r1e ?r2e ?r3e
            (fun h => (hctl h).1) (by decide)]
          case ble =>
            simp only [List.length_cons, List.length_take, List.length_append,
              be64_length, be32_length]
            omega
          case r1e => exact hr1
          case r2e => exact hr2
          case r3e => exact hr3
          rw [runHEADER_ext8_stall _ _ _ (by simp only [headerFC]; decide)
            (by simp only [headerFC, List.length_cons, List.length_take,
              List.length_append, be64_length, be32_length]; omega)]
          exact ⟨_, _, rfl⟩
        by_cases hm12 : m < 12
        · -- stalls while reading the mask key
          have hsplit : (be64 msg.payload_length ++ (be32 msg.mask ++ l)).take m =
              be64 msg.payload_length ++ (be32 msg.mask ++ l).take (m - 8) := by
            rw [List.take_append_eq_append_take,
              List.take_of_length_le (show (be64 msg.payload_length).length ≤ m by
                rw [be64_length]; omega),
              be64_length]
          rw [hsplit]
          rw [decode_dispatch_NONE _ _ hstate (by simp)]
          rw [runNONE_ok_encode _ msg (128 ||| 127) _ _ ?ble hop ?r1e ?r2e ?r3e
            (fun h => (hctl h).1) (by decide)]
          case ble =>
            simp only [List.length_cons, List.length_take, List.length_append,
              be64_length, be32_length]
            omega
          case r1e => exact hr1
          case r2e => exact hr2
          case r3e => exact hr3
          rw [runHEADER_ext8 _ _ _ (by simp only [headerFC]; decide)
            (by simp only [headerFC, List.length_cons, List.length_take,
              List.length_append, be64_length, be32_length]; omega)]
          rw [List.take_left' (be64_length msg.payload_length),
            List.drop_left' (be64_length msg.payload_length),
            readBE_be64 msg.payload_length hlen]
          rw [runHEADERcheck_pass _ _ _ ?chke8]
          case chke8 =>
            intro h
            obtain ⟨ha, hb⟩ := h
            simp only [headerFC] at hb
            rw [(fb_all msg hop).2.2.2.2, fromNat_toNat msg.opcode hop] at hb
            have := (hctl hb).2
            omega
          rw [runLENGTH_masked_stall _ _ _ (by simp only [headerFC]; decide)
            (by simp only [headerFC, List.length_cons, List.length_take,
              List.length_append, be64_length, be32_length]; omega)]
          exact ⟨_, _, rfl⟩
        · -- stalls while reading the payload
          have hsplit : (be64 msg.payload_length ++ (be32 msg.mask ++ l)).take m =
              be64 msg.payload_length ++ (be32 msg.mask ++ l.take (m - 8 - 4)) := by
            rw [List.take_append_eq_append_take,
              List.take_of_length_le (show (be64 msg.payload_length).length ≤ m by
                rw [be64_length]; omega),
              be64_length, List.take_append_eq_append_take,
              List.take_of_length_le (show (be32 msg.mask).length ≤ m - 8 by
                rw [be32_length]; omega),
              be32_length]
          rw [hsplit]
          rw [decode_dispatch_NONE _ _ hstate (by simp)]
          rw [runNONE_ok_encode _ msg (128 ||| 127) _ _ ?ble hop ?r1e ?r2e ?r3e
            (fun h => (hctl h).1) (by decide)]
          case ble =>
            simp only [List.length_cons, List.length_take, List.length_append,
              be64_length, be32_length]
            omega
          case r1e => exact hr1
          case r2e => exact hr2
          case r3e => exact hr3
          rw [runHEADER_ext8 _ _ _ (by simp only [headerFC]; decide)
            (by simp only [headerFC, List.length_cons, List.length_take,
              List.length_append, be64_length, be32_length]; omega)]
          rw [List.take_left' (be64_length msg.payload_length),
            List.drop_left' (be64_length msg.payload_length),
            readBE_be64 msg.payload_length hlen]
          rw [runHEADERcheck_pass _ _ _ ?chke8b]
          case chke8b =>
            intro h
            obtain ⟨ha, hb⟩ := h
            simp only [headerFC] at hb
            rw [(fb_all msg hop).2.2.2.2, fromNat_toNat msg.opcode hop] at hb
            have := (hctl hb).2
            omega
          rw [runLENGTH_masked _ _ _ (by simp only [headerFC]; decide)
            (by simp only [headerFC, List.length_cons, List.length_take,
              List.length_append, be64_length, be32_length]; omega)]
          rw [List.take_left' (be32_length msg.mask),
            List.drop_left' (be32_length msg.mask), readBE_be32 msg.mask hmask]
          rw [runMASK_stall_pre _ msg l (m - 8 - 4) _ ?mble8 ?mopce8 rfl
            (by simp only [headerFC]; decide) (fun h => htext h l had)]
          case mble8 =>
            simp only [headerFC, List.length_cons, List.length_take, List.length_append,
              be64_length, be32_length]
            omega
          case mopce8 =>
            show OpCode.fromNat (first_byte msg &&& 0x0F) = msg.opcode
            rw [(fb_all msg hop).2.2.2.2, fromNat_toNat msg.opcode hop]
          exact ⟨_, _, rfl⟩

/-- All chunks of a flattened-empty chunk list are empty. -/
theorem flatten_nil_all (cs : List (List Nat)) (h : cs.flatten = []) :
    ∀ x ∈ cs, x = [] := by
  induction cs with
  | nil =>
    intro x hx
    cases hx
  | cons a t ih =>
    intro x hx
    rw [List.flatten_cons] at h
    obtain ⟨h1, h2⟩ := List.append_eq_nil.mp h
    rcases List.mem_cons.mp hx with rfl | hx
    · exact h1
    · exact ih h2 x hx

/-- Feeding any chunking of the encoding of a structurally valid masked frame through
successive decode calls assembles exactly that frame (with the payload XOR the mask
pattern) and leaves no bytes pending. -/
theorem feed_core (fc0 : FrameCodec) (msg : Frame)
    (hstate : fc0.state = DecodeState.NONE)
    (happ : fc0.application_data = none) (hext : fc0.extension_data = none)
    (hm : msg.masked = true)
    (hop : msg.opcode.is_invalid = false)
    (hmext : msg.extension_data = none)
    (hr1 : msg.rsv1 = true → fc0.reserved_bits &&& 0x4 ≠ 0)
    (hr2 : msg.rsv2 = true → fc0.reserved_bits &&& 0x2 ≠ 0)
    (hr3 : msg.rsv3 = true → fc0.reserved_bits &&& 0x1 ≠ 0)
    (hctl : msg.opcode.is_control = true → msg.fin = true ∧ msg.payload_length ≤ 125)
    (hmask : msg.mask < 2 ^ 32)
    (hlen : msg.payload_length < 2 ^ 64)
    (hsome : ∀ l, msg.application_data = some l → l.length = msg.payload_length)
    (hnone : msg.application_data = none → msg.payload_length = 0)
    (hzero : msg.payload_length = 0 → msg.application_data = none)
    (htext : msg.opcode = OpCode.Text → ∀ l, msg.application_data = some l →
      utf8validate (apply_mask l msg.mask) ≠ .invalid) :
    ∀ (cs : List (List Nat)) (p pend : List Nat) (fcC : FrameCodec),
      p ++ cs.flatten = encode msg [] →
      (∃ fcP, decode fc0 p = .ok (none, fcP, pend) ∧ fcEquiv fcP fcC) →
      ∃ fcE, feedChunks fcC pend cs = .ok ([frameUnmasked msg], fcE, []) := by
  intro cs
  induction cs with
  | nil =>
    intro p pend fcC hpb hinv
    obtain ⟨fcP, hdec, _⟩ := hinv
    exfalso
    obtain ⟨fcF, hfull, _⟩ := decode_encode_core fc0 msg [] hstate happ hext hm hop
      hmext hr1 hr2 hr3 hctl hmask hlen hsome hnone hzero
    rw [List.append_nil] at hfull
    have hpB : p = encode msg [] := by simpa using hpb
    rw [hpB, hfull] at hdec
    simp at hdec
  | cons c cs ih =>
    intro p pend fcC hpb hinv
    obtain ⟨fcP, hdec, hequiv⟩ := hinv
    have hres : resEquiv (decode fcC (pend ++ c)) (decode fc0 (p ++ c)) :=
      resEquiv_trans (resEquiv_symm (decode_congr fcP fcC (pend ++ c) hequiv))
        (resEquiv_symm (decode_resume fc0 p c fcP pend hdec))
    have hassoc : (p ++ c) ++ cs.flatten = encode msg [] := by
      rw [List.append_assoc]
      simpa [List.flatten_cons] using hpb
    by_cases hfin : cs.flatten = []
    · -- this chunk completes the frame
      have hpc : p ++ c = encode msg [] := by
        rw [hfin, List.append_nil] at hassoc
        exact hassoc
      obtain ⟨fcF, hB, _⟩ := decode_encode_core fc0 msg [] hstate happ hext hm hop
        hmext hr1 hr2 hr3 hctl hmask hlen hsome hnone hzero
      rw [List.append_nil] at hB
      rw [hpc, hB] at hres
      rcases hd : decode fcC (pend ++ c) with e | ⟨f2, fcC2, b2⟩
      · rw [hd] at hres
        simp [resEquiv] at hres
      · rw [hd] at hres
        obtain ⟨hf2, _, hb2⟩ := hres
        rw [hf2, hb2] at hd
        exact ⟨fcC2, feedChunks_cons_some fcC fcC2 fcC2 pend [] [] c
          (frameUnmasked msg) cs [] hd
          (feedChunks_nils cs fcC2 (flatten_nil_all cs hfin))⟩
    · -- this chunk still leaves a strict prefix buffered
      have hlt : (p ++ c).length < (encode msg []).length := by
        rw [← hassoc]
        simp only [List.length_append]
        have hjl : cs.flatten.length ≠ 0 := fun h0 => hfin (List.length_eq_zero.mp h0)
        omega
      have htake : (encode msg []).take (p ++ c).length = p ++ c := by
        rw [← hassoc]
        exact List.take_left _ _
      obtain ⟨fcJ, pendJ, hJ⟩ := decode_encode_prefix fc0 msg (p ++ c).length hstate hm
        hop hr1 hr2 hr3 hctl hmask hlen hsome hnone hzero htext hlt
      rw [htake] at hJ
      rw [hJ] at hres
      rcases hd : decode fcC (pend ++ c) with e | ⟨f2, fcC2, b2⟩
      · rw [hd] at hres
        simp [resEquiv] at hres
      · rw [hd] at hres
        obtain ⟨hf2, hcc, hb2⟩ := hres
        rw [hf2, hb2] at hd
        rw [feedChunks_cons_none fcC fcC2 pend pendJ c cs hd]
        exact ih (p ++ c) pendJ fcC2 hassoc ⟨fcJ, hJ, fcEquiv_symm hcc⟩


/-- C4 (amended): for every structurally valid masked frame, decoding the bytes that
encode produced consumes exactly those bytes and ends in state FULL, but the emitted
frame carries the application data XOR the repeating mask pattern rather than the
original payload, because encode never masked it. -/
theorem c4_decode_encode_roundtrip_modulo_mask (fc : FrameCodec) (msg : Frame)
    (hstate : fc.state = DecodeState.NONE)
    (happ : fc.application_data = none) (hext : fc.extension_data = none)
    (hm : msg.masked = true)
    (hop : msg.opcode.is_invalid = false)
    (hmext : msg.extension_data = none)
    (hr1 : msg.rsv1 = true → fc.reserved_bits &&& 0x4 ≠ 0)
    (hr2 : msg.rsv2 = true → fc.reserved_bits &&& 0x2 ≠ 0)
    (hr3 : msg.rsv3 = true → fc.reserved_bits &&& 0x1 ≠ 0)
    (hctl : msg.opcode.is_control = true → msg.fin = true ∧ msg.payload_length ≤ 125)
    (hmask : msg.mask < 2 ^ 32)
    (hlen : msg.payload_length < 2 ^ 64)
    (hsome : ∀ l, msg.application_data = some l → l.length = msg.payload_length)
    (hnone : msg.application_data = none → msg.payload_length = 0)
    (hzero : msg.payload_length = 0 → msg.application_data = none) :
    ∃ fcF, decode fc (encode msg []) =
        .ok (some (frameUnmasked msg), fcF, []) ∧ fcF.state = DecodeState.FULL := by
  obtain ⟨fcF, h1, h2⟩ := decode_encode_core fc msg [] hstate happ hext hm hop hmext
    hr1 hr2 hr3 hctl hmask hlen hsome hnone hzero
  rw [List.append_nil] at h1
  exact ⟨fcF, h1, h2⟩

/-- Witness for C4: the round-trip theorem applied to the server-mode codec and a
concrete masked Binary frame. -/
theorem c4_decode_encode_roundtrip_modulo_mask_witness :
    ∃ fcF, decode fcServer (encode frameC4 []) =
        .ok (some (frameUnmasked frameC4), fcF, []) ∧ fcF.state = DecodeState.FULL :=
  c4_decode_encode_roundtrip_modulo_mask fcServer frameC4 rfl rfl rfl rfl rfl rfl
    (fun h => absurd h (by decide)) (fun h => absurd h (by decide))
    (fun h => absurd h (by decide)) (fun h => absurd h (by decide))
    (by decide) (by decide)
    (fun l hl => by simp [frameC4] at hl; subst hl; rfl)
    (fun h => by simp [frameC4] at h)
    (fun h => absurd h (by decide))

/-- C5 (amended): for every structurally valid masked frame whose unmasked Text
payload, if any, is valid UTF-8, feeding ANY chunking of its encoding through
successive decode calls (each call seeing the undrained bytes followed by the next
chunk) emits exactly the one frame that whole-buffer decoding emits, with the payload
XOR the mask pattern, and leaves no bytes pending.  The equivalence cannot be stated
for arbitrary byte sequences: the claim fails on frame boundaries (state FULL is never
reset) and on partially buffered Text payloads (the early UTF-8 check only runs on
strict prefixes), as the separate counterexample shows. -/
theorem c5_chunked_feed_matches_whole_buffer (fc : FrameCodec) (msg : Frame)
    (cs : List (List Nat))
    (hstate : fc.state = DecodeState.NONE)
    (happ : fc.application_data = none) (hext : fc.extension_data = none)
    (hm : msg.masked = true)
    (hop : msg.opcode.is_invalid = false)
    (hmext : msg.extension_data = none)
    (hr1 : msg.rsv1 = true → fc.reserved_bits &&& 0x4 ≠ 0)
    (hr2 : msg.rsv2 = true → fc.reserved_bits &&& 0x2 ≠ 0)
    (hr3 : msg.rsv3 = true → fc.reserved_bits &&& 0x1 ≠ 0)
    (hctl : msg.opcode.is_control = true → msg.fin = true ∧ msg.payload_length ≤ 125)
    (hmask : msg.mask < 2 ^ 32)
    (hlen : msg.payload_length < 2 ^ 64)
    (hsome : ∀ l, msg.application_data = some l → l.length = msg.payload_length)
    (hnone : msg.application_data = none → msg.payload_length = 0)
    (hzero : msg.payload_length = 0 → msg.application_data = none)
    (htext : msg.opcode = OpCode.Text → ∀ l, msg.application_data = some l →
      utf8validate (apply_mask l msg.mask) ≠ .invalid)
    (hjoin : cs.flatten = encode msg []) :
    ∃ fcE, feedChunks fc [] cs = .ok ([frameUnmasked msg], fcE, []) :=
  feed_core fc msg hstate happ hext hm hop hmext hr1 hr2 hr3 hctl hmask hlen hsome
    hnone hzero htext cs [] [] fc (by simpa using hjoin)
    ⟨fc, decode_nil fc, fcEquiv_refl fc⟩

/-- Witness for C5: the chunked-feed theorem applied to the server-mode codec, a
concrete masked Binary frame and a five-way chunking of its encoding. -/
theorem c5_chunked_feed_matches_whole_buffer_witness :
    ∃ fcE, feedChunks fcServer [] csC5 = .ok ([frameUnmasked frameC5], fcE, []) :=
  c5_chunked_feed_matches_whole_buffer fcServer frameC5 csC5 rfl rfl rfl rfl rfl rfl
    (fun h => absurd h (by decide)) (fun h => absurd h (by decide))
    (fun h => absurd h (by decide)) (fun h => absurd h (by decide))
    (by decide) (by decide)
    (fun l hl => by simp [frameC5] at hl; subst hl; rfl)
    (fun h => by simp [frameC5] at h)
    (fun h => absurd h (by decide))
    (fun h => absurd h (by decide))
    rfl
end Twist
